import Mathlib

/-!
Verification of the combat / character-state core of the human-vs-bots game.

The definitions below are a shallow embedding of the TypeScript sources:
* `Player.*`  embeds the Player entity (src/unnamed/part_007).
* `Enemy.*`   embeds the Enemy entity (src/src/entities/Enemy.ts).
* `AI.*`      embeds the EnemyAIController FSM (src/src/scenes/BootScene.ts).
* `Scene.*`   embeds the per-tick hit resolution (src/src/scenes/GameScene.ts).

Times, positions, velocities and health are rationals (the source uses JS
numbers for all of them); damage clamping `Math.max(0, h - amount)` becomes
`max 0 (h - amount)` over `ℚ`.  Phaser scheduled callbacks (the `once`
animation-completion handlers, `time.delayedCall`, tween `onComplete`,
`setTimeout`) are modelled as explicit events that an environment fires;
rendering, sounds and tweens that only touch sprite visuals are omitted.
-/

namespace HvB

/-- Player attack types (src/unnamed/part_007: `'punch' | 'uppercut' | 'aerial-punch'`). -/
inductive PAttack
  | punch
  | uppercut
  | aerialPunch
deriving DecidableEq

/-- Player states (src/unnamed/part_007, `enum PlayerState`). -/
inductive PlayerSt
  | idle
  | running
  | jumping
  | falling
  | attacking
  | hurt
  | dead
  | dodging
deriving DecidableEq

/-- Player CONFIG constants used by the combat logic (src/unnamed/part_007). -/
def P_MOVE_SPEED : ℚ := 300
def P_ACCELERATION : ℚ := 1500
def P_JUMP_VELOCITY : ℚ := -450
def P_MAX_JUMPS : Nat := 2
def P_JUMP_BUFFER_TIME : ℚ := 150
def P_MAX_HEALTH : ℚ := 100
def P_INVINCIBILITY_DURATION : ℚ := 500
def P_KNOCKBACK_FORCE : ℚ := 250
def P_COMBO_WINDOW : ℚ := 800
def P_COMBO_MIN_DELAY : ℚ := 250

/-- The Player's mutable fields (src/unnamed/part_007, class `Player`).
`velX`, `velY`, `accelX` record the most recent writes the player makes to its
physics body (`setVelocityX/Y`, `setAccelerationX`); reads of the body come
from the per-tick input (the physics engine is external). -/
structure PState where
  jumpsRemaining : Nat
  currentState : PlayerSt
  facingRight : Bool
  comboCount : Nat
  comboTimer : ℚ
  comboDelayTimer : ℚ
  bufferedAttack : Option PAttack
  jumpBufferTimer : ℚ
  maxHealth : ℚ
  currentHealth : ℚ
  isInvincible : Bool
  invincibilityTimer : ℚ
  currentAttackType : Option PAttack
  counterDodgeQueued : Bool
  velX : ℚ
  velY : ℚ
  accelX : ℚ
deriving DecidableEq

/-- The constructor-time Player state (field initializers of class `Player`). -/
def P0 : PState :=
  { jumpsRemaining := P_MAX_JUMPS
    currentState := .idle
    facingRight := true
    comboCount := 0
    comboTimer := 0
    comboDelayTimer := 0
    bufferedAttack := none
    jumpBufferTimer := 0
    maxHealth := P_MAX_HEALTH
    currentHealth := P_MAX_HEALTH
    isInvincible := false
    invincibilityTimer := 0
    currentAttackType := none
    counterDodgeQueued := false
    velX := 0
    velY := 0
    accelX := 0 }

/-- External readings sampled during one `Player.update()` call: the input
manager's just-pressed queries, the GameScene counter-dodge callbacks, and the
physics body reads (`blocked.down`, `velocity`). `delta` is the frame delta ms. -/
structure PTick where
  delta : ℚ
  debugHurt : Bool
  debugHurtStomach : Bool
  counterDodgePressed : Bool
  dodgePressed : Bool
  matrixDodgePressed : Bool
  punchPressed : Bool
  uppercutPressed : Bool
  jumpPressed : Bool
  moveLeft : Bool
  moveRight : Bool
  warningActive : Bool
  warningT : ℚ
  grounded : Bool
  bodyVelX : ℚ
  bodyVelY : ℚ
deriving DecidableEq

namespace Player

/-- `Player.triggerHurt` (state effect only; the hurt animation-completion
callback it registers is the separate `hurtAnimComplete` event). -/
def triggerHurt (s : PState) : PState :=
  if s.currentState = .hurt then s
  else { s with currentState := .hurt }

/-- `Player.triggerHurtStomach` (same state effect as `triggerHurt`). -/
def triggerHurtStomach (s : PState) : PState :=
  if s.currentState = .hurt then s
  else { s with currentState := .hurt }

/-- `Player.handleDebugHurt`. -/
def handleDebugHurt (s : PState) (i : PTick) : PState :=
  let s := if i.debugHurt then triggerHurt s else s
  if i.debugHurtStomach then triggerHurtStomach s else s

/-- `Player.performCounterDodge` (both the successful and the whiffed call;
the random choice of dodge animation and the scale-pulse tween are visual). -/
def performCounterDodge (s : PState) : PState :=
  { s with currentState := .dodging, counterDodgeQueued := false }

/-- `Player.queueCounterDodge`: grants invincibility immediately for
`delayMs + 600` and either schedules the dodge (`delayedCall`, modelled as the
`counterDodgeFire` event) or performs it at once when the delay is 0. -/
def queueCounterDodge (s : PState) (delayMs : ℚ) : PState :=
  let s := { s with
    counterDodgeQueued := true
    isInvincible := true
    invincibilityTimer := delayMs + 600 }
  if delayMs > 0 then s else performCounterDodge s

/-- `Player.handleCounterDodge`. -/
def handleCounterDodge (s : PState) (i : PTick) : PState :=
  if s.currentState = .dodging ∨ s.currentState = .attacking ∨
      s.currentState = .hurt ∨ s.counterDodgeQueued then s
  else if i.counterDodgePressed then
    if i.warningActive then queueCounterDodge s i.warningT
    else performCounterDodge s
  else s

/-- `Player.performDodge`. -/
def performDodge (s : PState) : PState :=
  { s with currentState := .dodging }

/-- `Player.handleDodge`. -/
def handleDodge (s : PState) (i : PTick) : PState :=
  if s.currentState = .dodging ∨ s.currentState = .attacking ∨
      s.currentState = .hurt then s
  else if i.dodgePressed then performDodge s else s

/-- `Player.performMatrixDodge` (same state effect as `performDodge`). -/
def performMatrixDodge (s : PState) : PState :=
  { s with currentState := .dodging }

/-- `Player.handleMatrixDodge`. -/
def handleMatrixDodge (s : PState) (i : PTick) : PState :=
  if s.currentState = .dodging ∨ s.currentState = .attacking ∨
      s.currentState = .hurt then s
  else if i.matrixDodgePressed then performMatrixDodge s else s

/-- `Player.performPunch`. -/
def performPunch (s : PState) : PState :=
  { s with
    currentState := .attacking
    currentAttackType := some .punch
    comboCount := 1
    comboTimer := P_COMBO_WINDOW
    comboDelayTimer := P_COMBO_MIN_DELAY }

/-- `Player.performUppercut`. -/
def performUppercut (s : PState) : PState :=
  { s with currentState := .attacking, currentAttackType := some .uppercut }

/-- `Player.performAerialPunch`. -/
def performAerialPunch (s : PState) : PState :=
  { s with currentState := .attacking, currentAttackType := some .aerialPunch }

/-- `Player.handleAttack`. -/
def handleAttack (s : PState) (i : PTick) : PState :=
  if s.currentState = .hurt then s
  else
    let isAttacking := s.currentState = .attacking
    let isAirborne := ¬ i.grounded
    if isAirborne ∧ ¬ isAttacking ∧ i.punchPressed then performAerialPunch s
    else if i.punchPressed ∧ s.comboCount = 1 ∧ s.comboDelayTimer ≤ 0 then
      let s := { s with bufferedAttack := none }
      let s := performUppercut s
      { s with comboCount := 0, comboTimer := 0 }
    else if isAttacking then
      if i.punchPressed then
        { s with bufferedAttack := some (if isAirborne then .aerialPunch else .punch) }
      else if i.uppercutPressed then { s with bufferedAttack := some .uppercut }
      else s
    else if i.uppercutPressed then performUppercut s
    else if i.punchPressed then performPunch s
    else s

/-- `Player.onAttackComplete` (the body of the attack animation-completion
callback, after `currentAttackType` is cleared by that callback). -/
def onAttackComplete (s : PState) : PState :=
  match s.bufferedAttack with
  | some a =>
      let s := { s with bufferedAttack := none }
      match a with
      | .punch => performPunch s
      | .uppercut => performUppercut s
      | .aerialPunch => performAerialPunch s
  | none => { s with currentState := .idle }

/-- `Player.handleMovement`. -/
def handleMovement (s : PState) (i : PTick) : PState :=
  if s.currentState = .attacking ∨ s.currentState = .hurt ∨
      s.currentState = .dodging then { s with accelX := 0 }
  else if i.moveLeft then { s with accelX := -P_ACCELERATION, facingRight := false }
  else if i.moveRight then { s with accelX := P_ACCELERATION, facingRight := true }
  else { s with accelX := 0 }

/-- `Player.handleJump`: buffer decrement, buffering the press, jump reset on
ground contact, and buffered jump execution. -/
def handleJump (s : PState) (i : PTick) : PState :=
  let s := if s.jumpBufferTimer > 0 then
      { s with jumpBufferTimer := s.jumpBufferTimer - i.delta } else s
  let s := if i.jumpPressed then { s with jumpBufferTimer := P_JUMP_BUFFER_TIME } else s
  let s := if i.grounded then { s with jumpsRemaining := P_MAX_JUMPS } else s
  if s.jumpBufferTimer > 0 ∧ s.jumpsRemaining > 0 then
    { s with
      velY := P_JUMP_VELOCITY
      jumpsRemaining := s.jumpsRemaining - 1
      jumpBufferTimer := 0 }
  else s

/-- `Player.updateState`: ground/air re-evaluation, suppressed only while
Attacking, Hurt or Dodging (note: Dead is not suppressed in the source). -/
def updateState (s : PState) (i : PTick) : PState :=
  if s.currentState = .attacking ∨ s.currentState = .hurt ∨
      s.currentState = .dodging then s
  else if ¬ i.grounded then
    { s with currentState := if i.bodyVelY < 0 then .jumping else .falling }
  else
    { s with currentState := if |i.bodyVelX| > 10 then .running else .idle }

/-- The combo-window decrement at the top of `Player.update` (reset
`comboCount` when the window expires). -/
def comboTimerTick (s : PState) (d : ℚ) : PState :=
  if s.comboTimer > 0 then
    let t := s.comboTimer - d
    if t ≤ 0 then { s with comboTimer := t, comboCount := 0 }
    else { s with comboTimer := t }
  else s

/-- The combo-delay decrement of `Player.update`. -/
def comboDelayTick (s : PState) (d : ℚ) : PState :=
  if s.comboDelayTimer > 0 then
    { s with comboDelayTimer := s.comboDelayTimer - d }
  else s

/-- The invincibility-timer decrement of `Player.update` (clears
`isInvincible` when it runs out). -/
def invincibilityTick (s : PState) (d : ℚ) : PState :=
  if s.invincibilityTimer > 0 then
    let t := s.invincibilityTimer - d
    if t ≤ 0 then { s with invincibilityTimer := t, isInvincible := false }
    else { s with invincibilityTimer := t }
  else s

/-- `Player.update`: one simulation tick, in source order — combo timers,
invincibility timer, debug hurt, counter-dodge, dodge, matrix dodge, attack,
movement, jump, state re-evaluation (facing update only flips the sprite). -/
def update (s : PState) (i : PTick) : PState :=
  let s := comboTimerTick s i.delta
  let s := comboDelayTick s i.delta
  let s := invincibilityTick s i.delta
  let s := handleDebugHurt s i
  let s := handleCounterDodge s i
  let s := handleDodge s i
  let s := handleMatrixDodge s i
  let s := handleAttack s i
  let s := handleMovement s i
  let s := handleJump s i
  updateState s i

/-- `Player.takeDamage(amount, attackerX)`; `selfX` is the sprite x read for
the knockback direction.  A no-op while invincible or dead; otherwise clamps
health at 0, applies knockback, starts invincibility, triggers the hurt
reaction, and on a fatal hit freezes the body and enters the Dead state. -/
def takeDamage (s : PState) (amount attackerX selfX : ℚ) : PState :=
  if s.isInvincible ∨ s.currentHealth ≤ 0 then s
  else
    let h := max 0 (s.currentHealth - amount)
    let dir : ℚ := if selfX < attackerX then -1 else 1
    let s := { s with
      currentHealth := h
      velX := dir * P_KNOCKBACK_FORCE
      isInvincible := true
      invincibilityTimer := P_INVINCIBILITY_DURATION }
    let s := triggerHurt s
    if h ≤ 0 then
      { s with currentState := .dead, velX := 0, velY := 0, accelX := 0 }
    else s

/-- `Player.isDead`. -/
def isDead (s : PState) : Bool := s.currentHealth ≤ 0

end Player

/-- Events that can reach the Player: a simulation tick, a `takeDamage` call
from hit resolution, and the scheduled callbacks the source registers —
the counter-dodge `delayedCall` and the `once('animationcomplete')` handlers
of attacks, hurt reactions and dodges. -/
inductive PEvent
  | tick (i : PTick)
  | takeDamage (amount attackerX selfX : ℚ)
  | counterDodgeFire
  | attackAnimComplete
  | hurtAnimComplete
  | dodgeAnimComplete
deriving DecidableEq

/-- Dispatch of one event to the Player.  The animation-completion callbacks
are unguarded in the source: the attack one clears `currentAttackType` and
runs `onAttackComplete`; the hurt and dodge ones set the state to Idle. -/
def pstep (s : PState) : PEvent → PState
  | .tick i => Player.update s i
  | .takeDamage a ax sx => Player.takeDamage s a ax sx
  | .counterDodgeFire => Player.performCounterDodge s
  | .attackAnimComplete =>
      Player.onAttackComplete { s with currentAttackType := none }
  | .hurtAnimComplete => { s with currentState := .idle }
  | .dodgeAnimComplete => { s with currentState := .idle }

/-- Run a list of events. -/
def prun (s : PState) (es : List PEvent) : PState := es.foldl pstep s

/-! ## Enemy (src/src/entities/Enemy.ts) -/

/-- Enemy attack types (`'punch' | 'sidekick' | 'jump_sidekick'`). -/
inductive EAttack
  | punch
  | sidekick
  | jumpSidekick
deriving DecidableEq

/-- The two attacks that can be telegraphed (`pendingAttack`). -/
inductive WAttack
  | punch
  | sidekick
deriving DecidableEq

/-- Enemy states (src/src/entities/Enemy.ts, `enum EnemyState`).  The source
enum has no Dead state: a dead enemy keeps whatever state it last had. -/
inductive EnemySt
  | idle
  | running
  | jumping
  | falling
  | attacking
  | hurt
deriving DecidableEq

/-- Enemy CONFIG constants used by the combat logic. -/
def E_MOVE_SPEED : ℚ := 250
def E_ACCELERATION : ℚ := 1200
def E_JUMP_VELOCITY : ℚ := -650
def E_MAX_HEALTH : ℚ := 300
def E_INVINCIBILITY_DURATION : ℚ := 800
def E_KNOCKBACK_FORCE : ℚ := 250
def ATTACK_WARNING_DURATION : ℚ := 500

/-- The attack type of the incoming hit, passed by GameScene to
`Enemy.takeDamage` to pick the hurt reaction (source compares the strings
`'sidekick'` and `'uppercut'`). -/
inductive HitType
  | punch
  | uppercut
  | aerialPunch
  | sidekick
  | jumpSidekick
deriving DecidableEq

/-- The Enemy's mutable fields (class `Enemy`).  `clock` is `scene.time.now`;
`velX`, `velY`, `accelX` record the enemy's latest writes to its physics body. -/
structure EState where
  currentState : EnemySt
  facingRight : Bool
  maxHealth : ℚ
  currentHealth : ℚ
  isInvincible : Bool
  invincibilityTimer : ℚ
  currentAttackType : Option EAttack
  pendingAttack : Option WAttack
  attackExecuteTime : ℚ
  clock : ℚ
  aiMovementDirection : Int
  aiJumpRequested : Bool
  targetX : Option ℚ
  velX : ℚ
  velY : ℚ
  accelX : ℚ
deriving DecidableEq

/-- The constructor-time Enemy state (field initializers of class `Enemy`). -/
def E0 : EState :=
  { currentState := .idle
    facingRight := false
    maxHealth := E_MAX_HEALTH
    currentHealth := E_MAX_HEALTH
    isInvincible := false
    invincibilityTimer := 0
    currentAttackType := none
    pendingAttack := none
    attackExecuteTime := 0
    clock := 0
    aiMovementDirection := 0
    aiJumpRequested := false
    targetX := none
    velX := 0
    velY := 0
    accelX := 0 }

/-- External readings sampled during one `Enemy.update()` call: the enemy test
keys and the physics body reads.  `x` is `sprite.x`. -/
structure ETick where
  delta : ℚ
  punchKey : Bool
  sidekickKey : Bool
  leftKey : Bool
  rightKey : Bool
  jumpKey : Bool
  grounded : Bool
  bodyVelX : ℚ
  bodyVelY : ℚ
  x : ℚ
deriving DecidableEq

namespace Enemy

/-- `Enemy.isShowingWarning`. -/
def isShowingWarning (s : EState) : Bool := s.pendingAttack ≠ none

/-- `Enemy.canAttack`: not attacking, not hurt, alive, not already warning. -/
def canAttack (s : EState) : Bool :=
  s.currentState ≠ .attacking ∧ s.currentState ≠ .hurt ∧
    s.currentHealth > 0 ∧ ¬ isShowingWarning s

/-- `Enemy.getTimeUntilAttack`. -/
def getTimeUntilAttack (s : EState) : ℚ :=
  if ¬ isShowingWarning s then 0
  else max 0 (s.attackExecuteTime - s.clock)

/-- `Enemy.showAttackWarning` (state effect: records the pending attack and
the absolute execute time `now + ATTACK_WARNING_DURATION`; the pulsing tween
whose `onComplete` executes the attack is the `warningFire` event). -/
def showAttackWarning (s : EState) (atk : WAttack) : EState :=
  { s with
    pendingAttack := some atk
    attackExecuteTime := s.clock + ATTACK_WARNING_DURATION }

/-- `Enemy.hideAttackWarning` (state effect: clears `pendingAttack`). -/
def hideAttackWarning (s : EState) : EState :=
  { s with pendingAttack := none }

/-- `Enemy.performPunch` (the animation-completion callback it registers is
the `attackAnimComplete` event). -/
def performPunch (s : EState) : EState :=
  { s with currentState := .attacking, currentAttackType := some .punch }

/-- `Enemy.performSidekick`: picks the jump-sidekick variant when airborne or
moving fast (`|velocity.x| > 50`), evaluated at execution time. -/
def performSidekick (s : EState) (isAirborne : Bool) (bodyVelX : ℚ) : EState :=
  let isRunning := |bodyVelX| > 50
  if isAirborne ∨ isRunning then
    { s with currentState := .attacking, currentAttackType := some .jumpSidekick }
  else
    { s with currentState := .attacking, currentAttackType := some .sidekick }

/-- `Enemy.punch()`: rejects (returning `false`, unchanged) unless
`canAttack()`, otherwise telegraphs the punch and returns `true`. -/
def punch (s : EState) : Bool × EState :=
  if ¬ canAttack s ∨ isShowingWarning s then (false, s)
  else (true, showAttackWarning s .punch)

/-- `Enemy.sidekick()`: same protocol for the sidekick. -/
def sidekick (s : EState) : Bool × EState :=
  if ¬ canAttack s ∨ isShowingWarning s then (false, s)
  else (true, showAttackWarning s .sidekick)

/-- The warning tween's `onComplete` (fires at the telegraphed execute time):
hides the warning, then executes the pending attack only if the enemy can
still attack.  `isAirborne`/`bodyVelX` are the body reads the sidekick variant
selection makes at execution time. -/
def warningFire (s : EState) (isAirborne : Bool) (bodyVelX : ℚ) : EState :=
  match s.pendingAttack with
  | none => s
  | some atk =>
      let s := hideAttackWarning s
      if canAttack s then
        match atk with
        | .punch => performPunch s
        | .sidekick => performSidekick s isAirborne bodyVelX
      else s

/-- `Enemy.handleAttack` (keyboard test-keys path; blocked while attacking,
hurt, dead or warning). -/
def handleAttack (s : EState) (i : ETick) : EState :=
  if s.currentState = .attacking ∨ s.currentState = .hurt ∨
      s.currentHealth ≤ 0 ∨ isShowingWarning s then s
  else if i.punchKey then (punch s).2
  else if i.sidekickKey then (sidekick s).2
  else s

/-- `Enemy.handleMovement`: hurt/grounded-attack plant, distance-target
auto-stop, then keyboard-OR-AI drive with jump-sidekick facing lock. -/
def handleMovement (s : EState) (i : ETick) : EState :=
  if s.currentState = .hurt ∨
      (s.currentState = .attacking ∧ s.currentAttackType ≠ some .jumpSidekick) then
    { s with accelX := 0 }
  else
    let reached : Bool :=
      match s.targetX with
      | some tx =>
          (s.aiMovementDirection = -1 ∧ i.x ≤ tx) ∨
            (s.aiMovementDirection = 1 ∧ i.x ≥ tx)
      | none => false
    if reached then
      { s with aiMovementDirection := 0, targetX := none, accelX := 0, velX := 0 }
    else
      let movingLeft := i.leftKey ∨ s.aiMovementDirection = -1
      let movingRight := i.rightKey ∨ s.aiMovementDirection = 1
      if movingLeft then
        let s := { s with accelX := -E_ACCELERATION }
        if s.currentAttackType ≠ some .jumpSidekick then
          { s with facingRight := false } else s
      else if movingRight then
        let s := { s with accelX := E_ACCELERATION }
        if s.currentAttackType ≠ some .jumpSidekick then
          { s with facingRight := true } else s
      else if s.currentAttackType ≠ some .jumpSidekick then { s with accelX := 0 }
      else s

/-- `Enemy.handleJump`: keyboard-OR-AI jump request, consumed one-shot, only
effective when on the ground. -/
def handleJump (s : EState) (i : ETick) : EState :=
  let jumpRequested := i.jumpKey ∨ s.aiJumpRequested
  let s := if s.aiJumpRequested then { s with aiJumpRequested := false } else s
  if jumpRequested ∧ i.grounded then { s with velY := E_JUMP_VELOCITY } else s

/-- `Enemy.updateState` (suppressed while Attacking or Hurt). -/
def updateState (s : EState) (i : ETick) : EState :=
  if s.currentState = .attacking ∨ s.currentState = .hurt then s
  else if ¬ i.grounded then
    { s with currentState := if i.bodyVelY < 0 then .jumping else .falling }
  else
    { s with currentState := if |i.bodyVelX| > 10 then .running else .idle }

/-- The invincibility-timer decrement of `Enemy.update`. -/
def invincibilityTickE (s : EState) (d : ℚ) : EState :=
  if s.invincibilityTimer > 0 then
    let t := s.invincibilityTimer - d
    if t ≤ 0 then { s with invincibilityTimer := t, isInvincible := false }
    else { s with invincibilityTimer := t }
  else s

/-- `Enemy.update`: one simulation tick — the scene clock advances by `delta`,
the invincibility timer is decremented, and (only while alive) the attack,
movement, jump and state steps run in source order. -/
def update (s : EState) (i : ETick) : EState :=
  let s := { s with clock := s.clock + i.delta }
  let s := invincibilityTickE s i.delta
  if s.currentHealth ≤ 0 then s
  else
    let s := handleAttack s i
    let s := handleMovement s i
    let s := handleJump s i
    updateState s i

/-- `Enemy.triggerHurt` (state effect; also cancels the current attack). -/
def triggerHurt (s : EState) : EState :=
  if s.currentState = .hurt then s
  else { s with currentState := .hurt, currentAttackType := none }

/-- `Enemy.triggerHurtStomach` (same state effect as `triggerHurt`). -/
def triggerHurtStomach (s : EState) : EState :=
  if s.currentState = .hurt then s
  else { s with currentState := .hurt, currentAttackType := none }

/-- `Enemy.takeDamage(amount, attackerX, attackType?)`; `selfX` is the sprite
x read for the knockback direction.  A no-op while invincible or dead;
sidekick and uppercut hits pick the face reaction, other named attack types
the stomach reaction; a fatal hit freezes the body (the Enemy has no Dead
state to enter). -/
def takeDamage (s : EState) (amount attackerX selfX : ℚ)
    (attackType : Option HitType) : EState :=
  if s.isInvincible ∨ s.currentHealth ≤ 0 then s
  else
    let h := max 0 (s.currentHealth - amount)
    let dir : ℚ := if selfX < attackerX then -1 else 1
    let s := { s with
      currentHealth := h
      velX := dir * E_KNOCKBACK_FORCE
      isInvincible := true
      invincibilityTimer := E_INVINCIBILITY_DURATION }
    let s :=
      if attackType = some .sidekick ∨ attackType = some .uppercut then
        triggerHurt s
      else if attackType ≠ none then triggerHurtStomach s
      else s
    if h ≤ 0 then { s with velX := 0, velY := 0, accelX := 0 } else s

/-- `Enemy.isDead`. -/
def isDead (s : EState) : Bool := s.currentHealth ≤ 0

end Enemy

/-- Events that can reach the Enemy: a simulation tick, a `takeDamage` call,
the warning tween's `onComplete`, and the `once('animationcomplete')`
handlers of attacks and hurt reactions. -/
inductive EEvent
  | tick (i : ETick)
  | takeDamage (amount attackerX selfX : ℚ) (attackType : Option HitType)
  | warningFire (isAirborne : Bool) (bodyVelX : ℚ)
  | attackAnimComplete
  | hurtAnimComplete
deriving DecidableEq

/-- Dispatch of one event to the Enemy.  The animation-completion callbacks
are unguarded in the source: the attack one clears `currentAttackType` and
sets Idle, the hurt one sets Idle. -/
def estep (s : EState) : EEvent → EState
  | .tick i => Enemy.update s i
  | .takeDamage a ax sx t => Enemy.takeDamage s a ax sx t
  | .warningFire air vx => Enemy.warningFire s air vx
  | .attackAnimComplete =>
      { s with currentAttackType := none, currentState := .idle }
  | .hurtAnimComplete => { s with currentState := .idle }

/-- Run a list of events. -/
def erun (s : EState) (es : List EEvent) : EState := es.foldl estep s

/-! ## Enemy AI controller (src/src/scenes/BootScene.ts, `EnemyAIController`) -/

/-- AI states (`enum AIState`). -/
inductive AISt
  | idle
  | chase
  | attack
  | retreat
deriving DecidableEq

/-- `AI_CONFIG` constants used by the FSM. -/
def AI_IDLE_TO_CHASE_DISTANCE : ℚ := 2000
def AI_CHASE_TO_IDLE_DISTANCE : ℚ := 600
def AI_ATTACK_DISTANCE : ℚ := 120
def AI_DISTANCE_VARIANCE : ℚ := 30
def AI_ATTACK_COOLDOWN : ℚ := 800
def AI_RETREAT_DURATION : ℚ := 500

/-- The controller's mutable fields (class `EnemyAIController`). -/
structure AIRec where
  current : AISt
  stateTimer : ℚ
  attackCooldown : ℚ
  lastAttackTime : ℚ
  attackPauseTimer : ℚ
  isWaitingToAttack : Bool
deriving DecidableEq

/-- The constructor-time controller state. -/
def AI0 : AIRec :=
  { current := .idle
    stateTimer := 0
    attackCooldown := AI_ATTACK_COOLDOWN
    lastAttackTime := 0
    attackPauseTimer := 0
    isWaitingToAttack := false }

namespace AI

/-- `EnemyAIController.transitionTo`: stops the enemy, clears the attack wait
and enters the new state with a fresh state timer. -/
def transitionTo (r : AIRec) (e : EState) (newState : AISt) : AIRec × EState :=
  ({ r with current := newState, stateTimer := 0, isWaitingToAttack := false },
   { e with aiMovementDirection := 0, targetX := none })

/-- `EnemyAIController.checkStateTransitions`.  `variance` is the value
`(Math.random() - 0.5) * 2 * DISTANCE_VARIANCE` drawn for this check. -/
def checkStateTransitions (r : AIRec) (e : EState) (distance variance : ℚ) :
    AIRec × EState :=
  match r.current with
  | .idle =>
      if distance < AI_IDLE_TO_CHASE_DISTANCE + variance then
        transitionTo r e .chase
      else (r, e)
  | .chase =>
      if distance < AI_ATTACK_DISTANCE + variance then
        transitionTo r e .attack
      else if distance > AI_CHASE_TO_IDLE_DISTANCE + variance then
        transitionTo r e .idle
      else (r, e)
  | .attack =>
      if distance > AI_ATTACK_DISTANCE + 20 then
        transitionTo r e .chase
      else (r, e)
  | .retreat =>
      if r.stateTimer ≥ AI_RETREAT_DURATION then
        transitionTo r e .chase
      else (r, e)

/-- The `setTimeout` continuation scheduled by
`EnemyAIController.performAttack` after a successful attack: transition to
`target` (Retreat or Chase) only if the controller is still in Attack. -/
def postAttackDelayed (r : AIRec) (e : EState) (target : AISt) : AIRec × EState :=
  if r.current = .attack then transitionTo r e target
  else (r, e)

end AI

/-! ## Hit resolution (src/src/scenes/GameScene.ts) -/

/-- `Phaser.Geom.Rectangle` as used by the hitboxes. -/
structure Rect where
  x : ℚ
  y : ℚ
  width : ℚ
  height : ℚ
deriving DecidableEq

/-- The overlap comparison `checkPlayerAttacks` / `checkEnemyAttacks` perform
between an attack hitbox and a defender's body bounds — strict `<` / `>` on
all four sides. -/
def overlapTest (hb : Rect) (left right top bottom : ℚ) : Bool :=
  hb.x < right ∧ hb.x + hb.width > left ∧
    hb.y < bottom ∧ hb.y + hb.height > top

/-- Animation keys the Player's `getAttackHitbox` compares against. -/
inductive PAnim
  | juanPunch
  | juanUppercut
  | juanAerialPunch
  | other
deriving DecidableEq

/-- Named frames of the aerial punch animation. -/
inductive PFrameName
  | windup
  | punch
  | other
deriving DecidableEq

/-- `Player.getAttackHitbox`: a live hitbox only while Attacking and on the
attack's active frames (punch: frame indices 2..3; uppercut: 1..3; aerial
punch: the `windup` and `punch` named frames).  `x`, `y` are the sprite
position, `animKey`/`frameIndex`/`frameName` the current animation frame. -/
def Player.getAttackHitbox (s : PState) (x y : ℚ) (animKey : PAnim)
    (frameIndex : Nat) (frameName : PFrameName) : Option Rect :=
  if s.currentState ≠ .attacking ∨ s.currentAttackType = none then none
  else
    match s.currentAttackType with
    | some .punch =>
        if animKey = .juanPunch ∧ 2 ≤ frameIndex ∧ frameIndex ≤ 3 then
          let w : ℚ := 100
          let h : ℚ := 60
          let ox : ℚ := if s.facingRight then 60 else -60
          let oy : ℚ := -30
          some ⟨x + ox - w / 2, y + oy - h / 2, w, h⟩
        else none
    | some .uppercut =>
        if animKey = .juanUppercut ∧ 1 ≤ frameIndex ∧ frameIndex ≤ 3 then
          let w : ℚ := 70
          let h : ℚ := 80
          let ox : ℚ := if s.facingRight then 40 else -40
          let oy : ℚ := -50
          some ⟨x + ox - w / 2, y + oy - h / 2, w, h⟩
        else none
    | some .aerialPunch =>
        if animKey = .juanAerialPunch ∧
            (frameName = .windup ∨ frameName = .punch) then
          let w : ℚ := 100
          let h : ℚ := 60
          let ox : ℚ := if s.facingRight then 60 else -60
          let oy : ℚ := -30
          some ⟨x + ox - w / 2, y + oy - h / 2, w, h⟩
        else none
    | none => none

/-- Animation keys the Enemy's `getAttackHitbox` compares against. -/
inductive EAnim
  | enemyPunch
  | enemySidekick
  | enemyJumpSidekick
  | other
deriving DecidableEq

/-- Named frames of the enemy attack animations. -/
inductive EFrameName
  | punchExtend
  | kickExtend
  | kickFollow
  | jumpKickExtend
  | other
deriving DecidableEq

/-- `Enemy.getAttackHitbox`: a live hitbox only while Attacking and on the
named active frames (`punch_extend`, `kick_extend`/`kick_follow`,
`jump_kick_extend`). -/
def Enemy.getAttackHitbox (s : EState) (x y : ℚ) (animKey : EAnim)
    (frameName : EFrameName) : Option Rect :=
  if s.currentState ≠ .attacking ∨ s.currentAttackType = none then none
  else if animKey = .enemyPunch ∧ frameName = .punchExtend then
    let w : ℚ := 100
    let h : ℚ := 60
    let ox : ℚ := if s.facingRight then 70 else -70
    let oy : ℚ := -30
    some ⟨x + ox - w / 2, y + oy - h / 2, w, h⟩
  else if animKey = .enemySidekick ∧
      (frameName = .kickExtend ∨ frameName = .kickFollow) then
    let w : ℚ := 120
    let h : ℚ := 80
    let ox : ℚ := if s.facingRight then 90 else -90
    let oy : ℚ := -40
    some ⟨x + ox - w / 2, y + oy - h / 2, w, h⟩
  else if animKey = .enemyJumpSidekick ∧ frameName = .jumpKickExtend then
    let w : ℚ := 140
    let h : ℚ := 100
    let ox : ℚ := if s.facingRight then 100 else -100
    let oy : ℚ := -20
    some ⟨x + ox - w / 2, y + oy - h / 2, w, h⟩
  else none

/-- `GameScene.checkPlayerAttacks`, per enemy, given the player's current
attack hitbox (`none` when not attacking or not in a hit frame): skips dead
or invincible enemies, computes the enemy body bounds from the sprite centre
and the body size, tests strict overlap, and on overlap calls
`Enemy.takeDamage` with the player's damage and attack type. -/
def Scene.checkPlayerAttack (hb : Option Rect) (enemy : EState)
    (enemyX enemyY bodyW bodyH damage playerX : ℚ)
    (attackType : Option HitType) : EState :=
  match hb with
  | none => enemy
  | some hb =>
      if Enemy.isDead enemy ∨ enemy.isInvincible then enemy
      else
        let left := enemyX - bodyW / 2
        let right := enemyX + bodyW / 2
        let top := enemyY - bodyH / 2
        let bottom := enemyY + bodyH / 2
        if overlapTest hb left right top bottom then
          Enemy.takeDamage enemy damage playerX enemyX attackType
        else enemy

/-- `GameScene.checkEnemyAttacks`, for one enemy, given the enemy's current
attack hitbox: skips a dead or invincible player and a dead enemy, tests the
same strict overlap against the player's body bounds, and on overlap calls
`Player.takeDamage`. -/
def Scene.checkEnemyAttack (hb : Option Rect) (player : PState)
    (enemy : EState) (playerX playerY bodyW bodyH damage enemyX : ℚ) : PState :=
  if Player.isDead player ∨ player.isInvincible then player
  else if Enemy.isDead enemy then player
  else
    match hb with
    | none => player
    | some hb =>
        let left := playerX - bodyW / 2
        let right := playerX + bodyW / 2
        let top := playerY - bodyH / 2
        let bottom := playerY + bodyH / 2
        if overlapTest hb left right top bottom then
          Player.takeDamage player damage enemyX playerX
        else player

/-! ## Auxiliary definitions for the verification -/

/-- The AI state after one `checkStateTransitions` call. -/
def aiNext (r : AIRec) (e : EState) (distance variance : ℚ) : AISt :=
  (AI.checkStateTransitions r e distance variance).1.current

/-- A tick whose input manager reports no pressed keys, with the body
grounded and at rest; `delta` is the frame delta. -/
def restTick (d : ℚ) : PTick :=
  { delta := d
    debugHurt := false
    debugHurtStomach := false
    counterDodgePressed := false
    dodgePressed := false
    matrixDodgePressed := false
    punchPressed := false
    uppercutPressed := false
    jumpPressed := false
    moveLeft := false
    moveRight := false
    warningActive := false
    warningT := 0
    grounded := true
    bodyVelX := 0
    bodyVelY := 0 }

/-- A grounded tick in which only primary-punch is just-pressed. -/
def punchTick (d : ℚ) : PTick := { restTick d with punchPressed := true }

/-- An airborne tick with no keys pressed (the body is falling). -/
def airTick (d : ℚ) : PTick := { restTick d with grounded := false, bodyVelY := 5 }

/-- An airborne tick in which only jump is just-pressed. -/
def jumpPressTick (d : ℚ) : PTick := { airTick d with jumpPressed := true }

/-- The press tick of the counter-dodge witness scenario: only counter-dodge
is just-pressed, a warning is active with 300 ms until the attack executes. -/
def cdPressTick : PTick :=
  { restTick 16 with
    counterDodgePressed := true
    warningActive := true
    warningT := 300 }

/-- Admissible event interleavings between the two punch presses of the combo
scenario: quiet grounded ticks (with nonnegative deltas summing to the index)
and the punch animation-completion callback. -/
inductive MidC4 : List PEvent → ℚ → Prop
  | nil : MidC4 [] 0
  | tick (d : ℚ) (es : List PEvent) (t : ℚ) :
      0 ≤ d → MidC4 es t → MidC4 (.tick (restTick d) :: es) (d + t)
  | done (es : List PEvent) (t : ℚ) :
      MidC4 es t → MidC4 (.attackAnimComplete :: es) t

/-- Airborne quiet ticks with nonnegative deltas summing to the index (the
wait between a buffered jump press and the landing). -/
inductive MidAir : List PEvent → ℚ → Prop
  | nil : MidAir [] 0
  | tick (d : ℚ) (es : List PEvent) (t : ℚ) :
      0 ≤ d → MidAir es t → MidAir (.tick (airTick d) :: es) (d + t)

/-- Total simulated time of an event list (the sum of its tick deltas). -/
def traceTime : List PEvent → ℚ
  | [] => 0
  | .tick i :: es => i.delta + traceTime es
  | _ :: es => traceTime es

/-- Admissible event traces after a queued counter-dodge, indexed by the
telegraph delay `T` and the time already elapsed since the press: ticks have
nonnegative deltas and honest warning-time readings (GameScene's
`getTimeUntilEnemyAttack` returns `max 0 ...`), and the scheduled
counter-dodge callback (`delayedCall(delayMs, ...)`) cannot fire before `T`
has elapsed.  Damage calls and the animation-completion callbacks may occur
at any time. -/
inductive CDOk (T : ℚ) : ℚ → List PEvent → Prop
  | nil (t : ℚ) : CDOk T t []
  | tick (t : ℚ) (i : PTick) (es : List PEvent) :
      0 ≤ i.delta → 0 ≤ i.warningT → CDOk T (t + i.delta) es →
      CDOk T t (.tick i :: es)
  | fire (t : ℚ) (es : List PEvent) :
      T ≤ t → CDOk T t es → CDOk T t (.counterDodgeFire :: es)
  | damage (t a ax sx : ℚ) (es : List PEvent) :
      CDOk T t es → CDOk T t (.takeDamage a ax sx :: es)
  | attackDone (t : ℚ) (es : List PEvent) :
      CDOk T t es → CDOk T t (.attackAnimComplete :: es)
  | hurtDone (t : ℚ) (es : List PEvent) :
      CDOk T t es → CDOk T t (.hurtAnimComplete :: es)
  | dodgeDone (t : ℚ) (es : List PEvent) :
      CDOk T t es → CDOk T t (.dodgeAnimComplete :: es)

/-- Invariant of the counter-dodge invincibility window: `t` ms after the
press, the player is still invincible with at least `T + 600 - t` ms left on
the timer (as long as the window has not closed), and the queued flag can
only have been consumed once the telegraph delay `T` has passed. -/
def CDInv (T t : ℚ) (s : PState) : Prop :=
  (t < T + 600 → s.isInvincible = true ∧ T + 600 - t ≤ s.invincibilityTimer) ∧
    (s.counterDodgeQueued = false → T ≤ t)

/-- Whether a player event is a `takeDamage` call with the given guard on its
amount: all real call sites pass `getAttackDamage()`, which is nonnegative. -/
def PDamOk : PEvent → Prop
  | .takeDamage a _ _ => 0 ≤ a
  | _ => True

/-- An event is the player `takeDamage` call. -/
def PIsDamage : PEvent → Bool
  | .takeDamage _ _ _ => true
  | _ => false

/-- Same guard for enemy events. -/
def EDamOk : EEvent → Prop
  | .takeDamage a _ _ _ => 0 ≤ a
  | _ => True

/-- An event is the enemy `takeDamage` call. -/
def EIsDamage : EEvent → Bool
  | .takeDamage _ _ _ _ => true
  | _ => false

/-- Health fields of the player state (to show ticks and callbacks never
write them). -/
def PHealthEq (s s2 : PState) : Prop :=
  s2.currentHealth = s.currentHealth ∧ s2.maxHealth = s.maxHealth

/-- Health fields of the enemy state. -/
def EHealthEq (s s2 : EState) : Prop :=
  s2.currentHealth = s.currentHealth ∧ s2.maxHealth = s.maxHealth

/-- Combo-relevant fields of the player state (to push facts about the combo
state machine through the handlers that do not touch it). -/
def PComboEq (s s2 : PState) : Prop :=
  s2.comboCount = s.comboCount ∧ s2.comboTimer = s.comboTimer ∧
    s2.comboDelayTimer = s.comboDelayTimer ∧
    s2.bufferedAttack = s.bufferedAttack ∧
    s2.currentState = s.currentState ∧
    s2.currentAttackType = s.currentAttackType

/-- Jump-relevant fields of the player state. -/
def PJumpEq (s s2 : PState) : Prop :=
  s2.jumpBufferTimer = s.jumpBufferTimer ∧
    s2.jumpsRemaining = s.jumpsRemaining ∧ s2.velY = s.velY

/-- Invariant of the combo scenario, `t` ms after the first punch press: the
punch was started (and possibly finished), no attack is buffered, and the
combo window and delay timers have ticked down from 800 and 250. -/
def C4Timers (t : ℚ) (s : PState) : Prop :=
  s.bufferedAttack = none ∧
    (t < 800 → s.comboCount = 1 ∧ s.comboTimer = 800 - t) ∧
    (800 ≤ t → s.comboCount = 0 ∧ s.comboTimer ≤ 0) ∧
    (t < 250 → s.comboDelayTimer = 250 - t) ∧
    (250 ≤ t → s.comboDelayTimer ≤ 0)

/-- The punch animation is still playing. -/
def AtkB (s : PState) : Prop :=
  s.currentState = .attacking ∧ s.currentAttackType = some .punch

/-- The punch animation has completed and the player idles. -/
def IdlB (s : PState) : Prop :=
  s.currentState = .idle ∧ s.currentAttackType = none

/-- Invariant of the jump-buffer scenario, `t` ms after the buffered jump
press while airborne with no jumps left: jumps stay exhausted, the vertical
velocity has not been written, and the 150 ms buffer has ticked down. -/
def JInv (t : ℚ) (s0 s : PState) : Prop :=
  s.jumpsRemaining = 0 ∧ s.velY = s0.velY ∧
    (t < 150 → s.jumpBufferTimer = 150 - t) ∧
    (150 ≤ t → s.jumpBufferTimer ≤ 0)

/-- Fields of the player state that the post-counter-dodge handlers of one
tick never touch (used to push facts through `Player.update`). -/
def PFrameEq (s s2 : PState) : Prop :=
  s2.isInvincible = s.isInvincible ∧
    s2.invincibilityTimer = s.invincibilityTimer ∧
    s2.counterDodgeQueued = s.counterDodgeQueued ∧
    s2.currentHealth = s.currentHealth ∧
    s2.maxHealth = s.maxHealth

/-! ## Supporting lemmas -/

lemma pframe_refl (s : PState) : PFrameEq s s :=
  ⟨rfl, rfl, rfl, rfl, rfl⟩

lemma pframe_trans {s1 s2 s3 : PState} (h1 : PFrameEq s1 s2)
    (h2 : PFrameEq s2 s3) : PFrameEq s1 s3 := by
  obtain ⟨a1, b1, c1, d1, e1⟩ := h1
  obtain ⟨a2, b2, c2, d2, e2⟩ := h2
  exact ⟨a2.trans a1, b2.trans b1, c2.trans c1, d2.trans d1, e2.trans e1⟩

lemma pframe_triggerHurt (s : PState) : PFrameEq s (Player.triggerHurt s) := by
  unfold PFrameEq
  simp only [Player.triggerHurt]
  split_ifs <;> simp

lemma pframe_triggerHurtStomach (s : PState) :
    PFrameEq s (Player.triggerHurtStomach s) := by
  unfold PFrameEq
  simp only [Player.triggerHurtStomach]
  split_ifs <;> simp

lemma pframe_handleDebugHurt (s : PState) (i : PTick) :
    PFrameEq s (Player.handleDebugHurt s i) := by
  unfold PFrameEq
  simp only [Player.handleDebugHurt, Player.triggerHurt, Player.triggerHurtStomach]
  split_ifs <;> simp

lemma pframe_handleDodge (s : PState) (i : PTick) :
    PFrameEq s (Player.handleDodge s i) := by
  unfold PFrameEq
  simp only [Player.handleDodge, Player.performDodge]
  split_ifs <;> simp

lemma pframe_handleMatrixDodge (s : PState) (i : PTick) :
    PFrameEq s (Player.handleMatrixDodge s i) := by
  unfold PFrameEq
  simp only [Player.handleMatrixDodge, Player.performMatrixDodge]
  split_ifs <;> simp

lemma pframe_handleAttack (s : PState) (i : PTick) :
    PFrameEq s (Player.handleAttack s i) := by
  unfold PFrameEq
  simp only [Player.handleAttack, Player.performAerialPunch, Player.performUppercut,
    Player.performPunch]
  split_ifs <;> simp

lemma pframe_handleMovement (s : PState) (i : PTick) :
    PFrameEq s (Player.handleMovement s i) := by
  unfold PFrameEq
  simp only [Player.handleMovement]
  split_ifs <;> simp

lemma pframe_handleJump (s : PState) (i : PTick) :
    PFrameEq s (Player.handleJump s i) := by
  unfold PFrameEq
  simp only [Player.handleJump]
  split_ifs <;> simp

lemma pframe_updateState (s : PState) (i : PTick) :
    PFrameEq s (Player.updateState s i) := by
  unfold PFrameEq
  simp only [Player.updateState]
  split_ifs <;> simp

/-- The handlers that run after `handleCounterDodge` inside one tick leave
the invincibility fields, the queued flag and the health untouched. -/
lemma pframe_afterCounterDodge (s : PState) (i : PTick) :
    PFrameEq s
      (Player.updateState
        (Player.handleJump
          (Player.handleMovement
            (Player.handleAttack
              (Player.handleMatrixDodge (Player.handleDodge s i) i) i) i) i) i) := by
  refine pframe_trans (pframe_handleDodge s i) ?_
  refine pframe_trans (pframe_handleMatrixDodge _ i) ?_
  refine pframe_trans (pframe_handleAttack _ i) ?_
  refine pframe_trans (pframe_handleMovement _ i) ?_
  refine pframe_trans (pframe_handleJump _ i) ?_
  exact pframe_updateState _ i

lemma phealth_refl (s : PState) : PHealthEq s s := ⟨rfl, rfl⟩

lemma phealth_trans {s1 s2 s3 : PState} (h1 : PHealthEq s1 s2)
    (h2 : PHealthEq s2 s3) : PHealthEq s1 s3 :=
  ⟨h2.1.trans h1.1, h2.2.trans h1.2⟩

lemma phealth_of_pframe {s s2 : PState} (h : PFrameEq s s2) : PHealthEq s s2 :=
  ⟨h.2.2.2.1, h.2.2.2.2⟩

lemma phealth_handleCounterDodge (s : PState) (i : PTick) :
    PHealthEq s (Player.handleCounterDodge s i) := by
  unfold PHealthEq
  simp only [Player.handleCounterDodge, Player.queueCounterDodge,
    Player.performCounterDodge]
  split_ifs <;> simp

/-- The handler chain of one tick (everything after the three timer
decrements) never writes health. -/
lemma phealth_chain (s : PState) (i : PTick) :
    PHealthEq s
      (Player.updateState
        (Player.handleJump
          (Player.handleMovement
            (Player.handleAttack
              (Player.handleMatrixDodge
                (Player.handleDodge
                  (Player.handleCounterDodge
                    (Player.handleDebugHurt s i) i) i) i) i) i) i) i) := by
  refine phealth_trans (phealth_of_pframe (pframe_handleDebugHurt s i)) ?_
  refine phealth_trans (phealth_handleCounterDodge _ i) ?_
  exact phealth_of_pframe (pframe_afterCounterDodge _ i)

lemma phealth_comboTimerTick (s : PState) (d : ℚ) :
    PHealthEq s (Player.comboTimerTick s d) := by
  unfold PHealthEq
  simp only [Player.comboTimerTick]
  split_ifs <;> simp

lemma phealth_comboDelayTick (s : PState) (d : ℚ) :
    PHealthEq s (Player.comboDelayTick s d) := by
  unfold PHealthEq
  simp only [Player.comboDelayTick]
  split_ifs <;> simp

lemma phealth_invincibilityTick (s : PState) (d : ℚ) :
    PHealthEq s (Player.invincibilityTick s d) := by
  unfold PHealthEq
  simp only [Player.invincibilityTick]
  split_ifs <;> simp

lemma update_health (s : PState) (i : PTick) :
    PHealthEq s (Player.update s i) := by
  unfold Player.update
  refine phealth_trans (phealth_comboTimerTick s i.delta) ?_
  refine phealth_trans (phealth_comboDelayTick _ i.delta) ?_
  refine phealth_trans (phealth_invincibilityTick _ i.delta) ?_
  exact phealth_chain _ i

lemma pstep_health (s : PState) (ev : PEvent) (hnd : PIsDamage ev = false) :
    PHealthEq s (pstep s ev) := by
  cases ev with
  | tick i => exact update_health s i
  | takeDamage a ax sx => exact absurd hnd (by simp [PIsDamage])
  | counterDodgeFire =>
      simp [pstep, Player.performCounterDodge, PHealthEq]
  | attackAnimComplete =>
      unfold pstep Player.onAttackComplete
      cases hb : s.bufferedAttack with
      | none => simp [PHealthEq]
      | some a =>
          cases a <;>
            simp [hb, Player.performPunch, Player.performUppercut,
              Player.performAerialPunch, PHealthEq]
  | hurtAnimComplete => simp [pstep, PHealthEq]
  | dodgeAnimComplete => simp [pstep, PHealthEq]

lemma takeDamage_health (s : PState) (a ax sx : ℚ) (ha : 0 ≤ a)
    (h0 : 0 ≤ s.currentHealth) :
    (Player.takeDamage s a ax sx).currentHealth ≤ s.currentHealth ∧
      0 ≤ (Player.takeDamage s a ax sx).currentHealth ∧
      (Player.takeDamage s a ax sx).maxHealth = s.maxHealth := by
  by_cases hg : s.isInvincible = true ∨ s.currentHealth ≤ 0
  · unfold Player.takeDamage
    rw [if_pos hg]
    exact ⟨le_refl _, h0, rfl⟩
  · have hmle : max 0 (s.currentHealth - a) ≤ s.currentHealth :=
      max_le h0 (by linarith)
    have hm0 : 0 ≤ max 0 (s.currentHealth - a) := le_max_left _ _
    unfold Player.takeDamage Player.triggerHurt
    rw [if_neg hg]
    dsimp only []
    split_ifs <;> exact ⟨hmle, hm0, rfl⟩

lemma prun_health (es : List PEvent) :
    ∀ s : PState, (∀ e ∈ es, PDamOk e) → 0 ≤ s.currentHealth →
      (prun s es).currentHealth ≤ s.currentHealth ∧
        0 ≤ (prun s es).currentHealth ∧
        (prun s es).maxHealth = s.maxHealth := by
  induction es with
  | nil => intro s _ h0; exact ⟨le_refl _, h0, rfl⟩
  | cons e es ih =>
      intro s hok h0
      have hstep :
          (pstep s e).currentHealth ≤ s.currentHealth ∧
            0 ≤ (pstep s e).currentHealth ∧
            (pstep s e).maxHealth = s.maxHealth := by
        cases e with
        | takeDamage a ax sx =>
            have ha : 0 ≤ a := hok _ (List.mem_cons_self _ _)
            exact takeDamage_health s a ax sx ha h0
        | tick i =>
            have h := update_health s i
            exact ⟨le_of_eq h.1, h.1 ▸ h0, h.2⟩
        | counterDodgeFire =>
            have h := pstep_health s .counterDodgeFire (by simp [PIsDamage])
            exact ⟨le_of_eq h.1, h.1 ▸ h0, h.2⟩
        | attackAnimComplete =>
            have h := pstep_health s .attackAnimComplete (by simp [PIsDamage])
            exact ⟨le_of_eq h.1, h.1 ▸ h0, h.2⟩
        | hurtAnimComplete =>
            have h := pstep_health s .hurtAnimComplete (by simp [PIsDamage])
            exact ⟨le_of_eq h.1, h.1 ▸ h0, h.2⟩
        | dodgeAnimComplete =>
            have h := pstep_health s .dodgeAnimComplete (by simp [PIsDamage])
            exact ⟨le_of_eq h.1, h.1 ▸ h0, h.2⟩
      have hok2 : ∀ e2 ∈ es, PDamOk e2 := fun e2 he2 =>
        hok e2 (List.mem_cons_of_mem _ he2)
      have ih2 := ih (pstep s e) hok2 hstep.2.1
      refine ⟨le_trans ih2.1 hstep.1, ih2.2.1, ih2.2.2.trans hstep.2.2⟩

lemma ehealth_trans {s1 s2 s3 : EState} (h1 : EHealthEq s1 s2)
    (h2 : EHealthEq s2 s3) : EHealthEq s1 s3 :=
  ⟨h2.1.trans h1.1, h2.2.trans h1.2⟩

lemma ehealth_handleAttack (s : EState) (i : ETick) :
    EHealthEq s (Enemy.handleAttack s i) := by
  unfold EHealthEq
  simp only [Enemy.handleAttack, Enemy.punch, Enemy.sidekick,
    Enemy.showAttackWarning]
  split_ifs <;> simp

lemma ehealth_handleMovement (s : EState) (i : ETick) :
    EHealthEq s (Enemy.handleMovement s i) := by
  unfold EHealthEq
  simp only [Enemy.handleMovement]
  split_ifs <;> simp

lemma ehealth_handleJump (s : EState) (i : ETick) :
    EHealthEq s (Enemy.handleJump s i) := by
  unfold EHealthEq
  simp only [Enemy.handleJump]
  split_ifs <;> simp

lemma ehealth_updateState (s : EState) (i : ETick) :
    EHealthEq s (Enemy.updateState s i) := by
  unfold EHealthEq
  simp only [Enemy.updateState]
  split_ifs <;> simp

lemma ehealth_invincibilityTickE (s : EState) (d : ℚ) :
    EHealthEq s (Enemy.invincibilityTickE s d) := by
  unfold EHealthEq
  simp only [Enemy.invincibilityTickE]
  split_ifs <;> simp

lemma update_healthE (s : EState) (i : ETick) :
    EHealthEq s (Enemy.update s i) := by
  unfold Enemy.update
  refine ehealth_trans
    (show EHealthEq s { s with clock := s.clock + i.delta } from ⟨rfl, rfl⟩) ?_
  refine ehealth_trans (ehealth_invincibilityTickE _ i.delta) ?_
  dsimp only []
  split_ifs
  · exact ⟨rfl, rfl⟩
  · refine ehealth_trans (ehealth_handleAttack _ i) ?_
    refine ehealth_trans (ehealth_handleMovement _ i) ?_
    refine ehealth_trans (ehealth_handleJump _ i) ?_
    exact ehealth_updateState _ i

lemma estep_health (s : EState) (ev : EEvent) (hnd : EIsDamage ev = false) :
    EHealthEq s (estep s ev) := by
  cases ev with
  | tick i => exact update_healthE s i
  | takeDamage a ax sx t => exact absurd hnd (by simp [EIsDamage])
  | warningFire air vx =>
      unfold estep Enemy.warningFire
      cases hpa : s.pendingAttack with
      | none => exact ⟨rfl, rfl⟩
      | some atk =>
          cases atk <;>
            simp [Enemy.hideAttackWarning, Enemy.performPunch,
              Enemy.performSidekick, EHealthEq] <;>
            split_ifs <;> simp
  | attackAnimComplete => simp [estep, EHealthEq]
  | hurtAnimComplete => simp [estep, EHealthEq]

lemma takeDamage_healthE (s : EState) (a ax sx : ℚ) (t : Option HitType)
    (ha : 0 ≤ a) (h0 : 0 ≤ s.currentHealth) :
    (Enemy.takeDamage s a ax sx t).currentHealth ≤ s.currentHealth ∧
      0 ≤ (Enemy.takeDamage s a ax sx t).currentHealth ∧
      (Enemy.takeDamage s a ax sx t).maxHealth = s.maxHealth := by
  by_cases hg : s.isInvincible = true ∨ s.currentHealth ≤ 0
  · unfold Enemy.takeDamage
    rw [if_pos hg]
    exact ⟨le_refl _, h0, rfl⟩
  · have hmle : max 0 (s.currentHealth - a) ≤ s.currentHealth :=
      max_le h0 (by linarith)
    have hm0 : 0 ≤ max 0 (s.currentHealth - a) := le_max_left _ _
    unfold Enemy.takeDamage Enemy.triggerHurt Enemy.triggerHurtStomach
    rw [if_neg hg]
    dsimp only []
    split_ifs <;> exact ⟨hmle, hm0, rfl⟩

lemma erun_health (es : List EEvent) :
    ∀ s : EState, (∀ e ∈ es, EDamOk e) → 0 ≤ s.currentHealth →
      (erun s es).currentHealth ≤ s.currentHealth ∧
        0 ≤ (erun s es).currentHealth ∧
        (erun s es).maxHealth = s.maxHealth := by
  induction es with
  | nil => intro s _ h0; exact ⟨le_refl _, h0, rfl⟩
  | cons e es ih =>
      intro s hok h0
      have hstep :
          (estep s e).currentHealth ≤ s.currentHealth ∧
            0 ≤ (estep s e).currentHealth ∧
            (estep s e).maxHealth = s.maxHealth := by
        cases e with
        | takeDamage a ax sx t =>
            have ha : 0 ≤ a := hok _ (List.mem_cons_self _ _)
            exact takeDamage_healthE s a ax sx t ha h0
        | tick i =>
            have h := update_healthE s i
            exact ⟨le_of_eq h.1, h.1 ▸ h0, h.2⟩
        | warningFire air vx =>
            have h := estep_health s (.warningFire air vx) (by simp [EIsDamage])
            exact ⟨le_of_eq h.1, h.1 ▸ h0, h.2⟩
        | attackAnimComplete =>
            have h := estep_health s .attackAnimComplete (by simp [EIsDamage])
            exact ⟨le_of_eq h.1, h.1 ▸ h0, h.2⟩
        | hurtAnimComplete =>
            have h := estep_health s .hurtAnimComplete (by simp [EIsDamage])
            exact ⟨le_of_eq h.1, h.1 ▸ h0, h.2⟩
      have hok2 : ∀ e2 ∈ es, EDamOk e2 := fun e2 he2 =>
        hok e2 (List.mem_cons_of_mem _ he2)
      have ih2 := ih (estep s e) hok2 hstep.2.1
      exact ⟨le_trans ih2.1 hstep.1, ih2.2.1, ih2.2.2.trans hstep.2.2⟩

/-! ## Claim C10 -/

/-- C10: health invariants.  (1)/(2): only `takeDamage` writes health — every
tick and every scheduled callback leaves `currentHealth` and `maxHealth`
unchanged, for both combatants.  (3)/(4): an effective `takeDamage` sets
`health = max 0 (health - amount)`, and for nonnegative amounts this never
increases health and never goes below 0.  (5)/(6): along any event trace
whose damage amounts are nonnegative (all real call sites pass
`getAttackDamage() ≥ 0`), health is monotonically non-increasing and stays in
`[0, maxHealth]`. -/
theorem claim_C10_health_invariant :
    (∀ (s : PState) (ev : PEvent), PIsDamage ev = false →
      (pstep s ev).currentHealth = s.currentHealth ∧
        (pstep s ev).maxHealth = s.maxHealth) ∧
      (∀ (s : EState) (ev : EEvent), EIsDamage ev = false →
        (estep s ev).currentHealth = s.currentHealth ∧
          (estep s ev).maxHealth = s.maxHealth) ∧
      (∀ (s : PState) (a ax sx : ℚ),
        (¬ (s.isInvincible = true ∨ s.currentHealth ≤ 0) →
          (Player.takeDamage s a ax sx).currentHealth =
            max 0 (s.currentHealth - a)) ∧
          (0 ≤ a → 0 ≤ s.currentHealth →
            (Player.takeDamage s a ax sx).currentHealth ≤ s.currentHealth ∧
              0 ≤ (Player.takeDamage s a ax sx).currentHealth)) ∧
      (∀ (s : EState) (a ax sx : ℚ) (t : Option HitType),
        (¬ (s.isInvincible = true ∨ s.currentHealth ≤ 0) →
          (Enemy.takeDamage s a ax sx t).currentHealth =
            max 0 (s.currentHealth - a)) ∧
          (0 ≤ a → 0 ≤ s.currentHealth →
            (Enemy.takeDamage s a ax sx t).currentHealth ≤ s.currentHealth ∧
              0 ≤ (Enemy.takeDamage s a ax sx t).currentHealth)) ∧
      (∀ (es : List PEvent) (s : PState), (∀ e ∈ es, PDamOk e) →
        0 ≤ s.currentHealth → s.currentHealth ≤ s.maxHealth →
        0 ≤ (prun s es).currentHealth ∧
          (prun s es).currentHealth ≤ s.currentHealth ∧
          (prun s es).currentHealth ≤ (prun s es).maxHealth) ∧
      (∀ (es : List EEvent) (s : EState), (∀ e ∈ es, EDamOk e) →
        0 ≤ s.currentHealth → s.currentHealth ≤ s.maxHealth →
        0 ≤ (erun s es).currentHealth ∧
          (erun s es).currentHealth ≤ s.currentHealth ∧
          (erun s es).currentHealth ≤ (erun s es).maxHealth) := by
  refine ⟨?_, ?_, ?_, ?_, ?_, ?_⟩
  · intro s ev h
    exact ⟨(pstep_health s ev h).1, (pstep_health s ev h).2⟩
  · intro s ev h
    exact ⟨(estep_health s ev h).1, (estep_health s ev h).2⟩
  · intro s a ax sx
    constructor
    · intro hg
      unfold Player.takeDamage Player.triggerHurt
      rw [if_neg hg]
      dsimp only []
      split_ifs <;> rfl
    · intro ha h0
      exact ⟨(takeDamage_health s a ax sx ha h0).1,
        (takeDamage_health s a ax sx ha h0).2.1⟩
  · intro s a ax sx t
    constructor
    · intro hg
      unfold Enemy.takeDamage Enemy.triggerHurt Enemy.triggerHurtStomach
      rw [if_neg hg]
      dsimp only []
      split_ifs <;> rfl
    · intro ha h0
      exact ⟨(takeDamage_healthE s a ax sx t ha h0).1,
        (takeDamage_healthE s a ax sx t ha h0).2.1⟩
  · intro es s hok h0 hmax
    have h := prun_health es s hok h0
    exact ⟨h.2.1, h.1, le_trans (le_trans h.1 hmax) (le_of_eq h.2.2.symm)⟩
  · intro es s hok h0 hmax
    have h := erun_health es s hok h0
    exact ⟨h.2.1, h.1, le_trans (le_trans h.1 hmax) (le_of_eq h.2.2.symm)⟩

/-- Witness for C10: a 30-damage hit on the fresh player leaves 70 health,
and a small trace (hit, then the hurt-animation callback) keeps health in
range and non-increasing. -/
theorem claim_C10_witness :
    (Player.takeDamage P0 30 50 0).currentHealth = max 0 (100 - 30) ∧
      (0 ≤ (prun P0 [.takeDamage 30 50 0, .hurtAnimComplete]).currentHealth ∧
        (prun P0 [.takeDamage 30 50 0, .hurtAnimComplete]).currentHealth ≤
          P0.currentHealth ∧
        (prun P0 [.takeDamage 30 50 0, .hurtAnimComplete]).currentHealth ≤
          (prun P0 [.takeDamage 30 50 0, .hurtAnimComplete]).maxHealth) := by
  have h := claim_C10_health_invariant
  constructor
  · have h2 := (h.2.2.1 P0 30 50 0).1 (by norm_num [P0, P_MAX_HEALTH])
    rw [h2]
    norm_num [P0, P_MAX_HEALTH]
  · refine h.2.2.2.2.1 [.takeDamage 30 50 0, .hurtAnimComplete] P0 ?_ ?_ ?_
    · intro e he
      simp only [List.mem_cons, List.mem_singleton, List.not_mem_nil,
        or_false] at he
      rcases he with rfl | rfl <;> norm_num [PDamOk]
    · norm_num [P0, P_MAX_HEALTH]
    · norm_num [P0, P_MAX_HEALTH]

/-! ## Claim C3 -/

/-- C3: for every combatant, `takeDamage` called while `isInvincible` or
while health ≤ 0 is a complete no-op for any amount, attacker position and
attack type — the whole state (health, velocity, invincibility flag and
timer, state, facing) is returned unchanged, and no error is raised. -/
theorem claim_C3_takeDamage_noop (p : PState) (e : EState)
    (a ax sx b bx sy : ℚ) (t : Option HitType)
    (hp : p.isInvincible = true ∨ p.currentHealth ≤ 0)
    (he : e.isInvincible = true ∨ e.currentHealth ≤ 0) :
    Player.takeDamage p a ax sx = p ∧ Enemy.takeDamage e b bx sy t = e := by
  constructor
  · unfold Player.takeDamage
    rw [if_pos hp]
  · unfold Enemy.takeDamage
    rw [if_pos he]

/-- Witness for C3: an invincible player and a dead enemy shrug off a hit. -/
theorem claim_C3_witness :
    Player.takeDamage { P0 with isInvincible := true } 25 300 100 =
        { P0 with isInvincible := true } ∧
      Enemy.takeDamage { E0 with currentHealth := 0 } 10 0 0 none =
        { E0 with currentHealth := 0 } :=
  claim_C3_takeDamage_noop { P0 with isInvincible := true }
    { E0 with currentHealth := 0 } 25 300 100 10 0 0 none
    (Or.inl rfl) (Or.inr (by norm_num))

/-! ## Claim C1 -/

/-- C1 counterexample: the Dead state is not terminal.  A fatal
`Player.takeDamage` first calls `triggerHurt`, which registers an unguarded
hurt animation-completion callback; when that callback fires it sets the dead
player's state back to Idle.  (The Enemy cannot even enter a Dead state:
`EnemyState` has no such member.) -/
theorem claim_C1_counterexample :
    (Player.takeDamage { P0 with currentHealth := 10 } 10 50 0).currentState
        = .dead ∧
      (Player.takeDamage { P0 with currentHealth := 10 } 10 50 0).currentHealth
        = 0 ∧
      (pstep (Player.takeDamage { P0 with currentHealth := 10 } 10 50 0)
          .hurtAnimComplete).currentState = .idle := by
  refine ⟨?_, ?_, ?_⟩ <;> norm_num [Player.takeDamage, Player.triggerHurt, pstep, P0] <;>
    decide

/-- C1 amended: once health reaches 0, every subsequent `takeDamage` call is
a complete no-op (health stays 0 and the state is not changed by it), for
both combatants; the Player is put into the Dead state by the killing blow
itself.  However the Dead state is not terminal against scheduled callbacks
(see the counterexample), and the Enemy has no Dead state at all. -/
theorem claim_C1_amended (p : PState) (e : EState)
    (a ax sx b bx sy : ℚ) (t : Option HitType) :
    (p.currentHealth ≤ 0 → Player.takeDamage p a ax sx = p) ∧
      (e.currentHealth ≤ 0 → Enemy.takeDamage e b bx sy t = e) ∧
      (p.isInvincible = false → 0 < p.currentHealth → p.currentHealth ≤ a →
        (Player.takeDamage p a ax sx).currentState = .dead ∧
          (Player.takeDamage p a ax sx).currentHealth = 0) := by
  refine ⟨?_, ?_, ?_⟩
  · intro h
    unfold Player.takeDamage
    rw [if_pos (Or.inr h)]
  · intro h
    unfold Enemy.takeDamage
    rw [if_pos (Or.inr h)]
  · intro hinv hpos hle
    have hguard : ¬ (p.isInvincible = true ∨ p.currentHealth ≤ 0) := by
      rintro (h | h)
      · rw [hinv] at h
        exact Bool.false_ne_true h
      · exact absurd h (not_le.mpr hpos)
    have hmax : max 0 (p.currentHealth - a) = 0 :=
      max_eq_left (by linarith)
    unfold Player.takeDamage
    rw [if_neg hguard]
    have h00 : (0 : ℚ) ≤ 0 := le_refl 0
    simp only [hmax, Player.triggerHurt]
    split_ifs <;> simp_all

/-- Witness for C1 amended: dead combatants ignore damage; a 100-damage hit
kills the fresh player. -/
theorem claim_C1_amended_witness :
    (Player.takeDamage { P0 with currentHealth := 0 } 5 0 0 =
        { P0 with currentHealth := 0 }) ∧
      (Enemy.takeDamage { E0 with currentHealth := 0 } 5 0 0 none =
        { E0 with currentHealth := 0 }) ∧
      ((Player.takeDamage P0 100 50 0).currentState = .dead ∧
        (Player.takeDamage P0 100 50 0).currentHealth = 0) := by
  have h := claim_C1_amended { P0 with currentHealth := 0 }
    { E0 with currentHealth := 0 } 5 0 0 5 0 0 none
  have h2 := claim_C1_amended P0 E0 100 50 0 0 0 0 none
  exact ⟨h.1 (by norm_num), h.2.1 (by norm_num),
    h2.2.2 rfl (by norm_num [P0, P_MAX_HEALTH]) (by norm_num [P0, P_MAX_HEALTH])⟩

/-! ## Claim C9 -/

/-- C9 counterexample: the hit-resolution overlap test is strict.  A punching
player at the origin (facing right) produces the hitbox `(10, -60, 100, 60)`,
whose right edge is at 110; an enemy of body width 100 centred at x = 160 has
its left edge exactly at 110 (rectangles touching at the boundary).  The
overlap test `hitboxRight > enemyLeft` is strict, so no hit is registered and
`takeDamage` is not called — the claim says a touching boundary counts as a
hit. -/
theorem claim_C9_counterexample :
    Player.getAttackHitbox
        { P0 with currentState := .attacking, currentAttackType := some .punch }
        0 0 .juanPunch 3 .other = some ⟨10, -60, 100, 60⟩ ∧
      Scene.checkPlayerAttack (some ⟨10, -60, 100, 60⟩) E0 160 0 100 220 10 0
        (some .punch) = E0 := by
  constructor
  · norm_num [Player.getAttackHitbox, P0]
    decide
  · norm_num [Scene.checkPlayerAttack, overlapTest, Enemy.isDead, E0, E_MAX_HEALTH]

/-- C9 amended: a defender placed exactly at the hitbox edge (rectangles
touching at the boundary on any of the four sides) does NOT count as a hit:
the overlap test uses strict `<`/`>` comparisons, so `takeDamage` is not
called and the defender is left unchanged, on both the player-attack and the
enemy-attack resolution paths. -/
theorem claim_C9_amended :
    (∀ (hb : Rect) (e : EState) (ex ey w h dmg px : ℚ) (t : Option HitType),
      (hb.x + hb.width = ex - w / 2 ∨ hb.x = ex + w / 2 ∨
        hb.y + hb.height = ey - h / 2 ∨ hb.y = ey + h / 2) →
      Scene.checkPlayerAttack (some hb) e ex ey w h dmg px t = e) ∧
    (∀ (hb : Rect) (p : PState) (e : EState) (px py w h dmg ex : ℚ),
      (hb.x + hb.width = px - w / 2 ∨ hb.x = px + w / 2 ∨
        hb.y + hb.height = py - h / 2 ∨ hb.y = py + h / 2) →
      Scene.checkEnemyAttack (some hb) p e px py w h dmg ex = p) := by
  constructor
  · intro hb e ex ey w h dmg px t htouch
    have hov : overlapTest hb (ex - w / 2) (ex + w / 2) (ey - h / 2) (ey + h / 2)
        = false := by
      simp only [overlapTest, Bool.decide_and, Bool.and_eq_false_iff,
        decide_eq_false_iff_not, not_lt]
      rcases htouch with ht | ht | ht | ht
      · exact Or.inr (Or.inl (le_of_eq ht))
      · exact Or.inl (le_of_eq ht.symm)
      · exact Or.inr (Or.inr (Or.inr (le_of_eq ht)))
      · exact Or.inr (Or.inr (Or.inl (le_of_eq ht.symm)))
    simp [Scene.checkPlayerAttack, hov]
  · intro hb p e px py w h dmg ex htouch
    have hov : overlapTest hb (px - w / 2) (px + w / 2) (py - h / 2) (py + h / 2)
        = false := by
      simp only [overlapTest, Bool.decide_and, Bool.and_eq_false_iff,
        decide_eq_false_iff_not, not_lt]
      rcases htouch with ht | ht | ht | ht
      · exact Or.inr (Or.inl (le_of_eq ht))
      · exact Or.inl (le_of_eq ht.symm)
      · exact Or.inr (Or.inr (Or.inr (le_of_eq ht)))
      · exact Or.inr (Or.inr (Or.inl (le_of_eq ht.symm)))
    simp [Scene.checkEnemyAttack, hov]

/-! ## Claim C6 -/

/-- C6 counterexample: an enemy in Chase at distance 100 does NOT necessarily
transition to Attack on the next check.  The transition needs
`100 < 120 + variance`, and the variance is drawn from (-30, 30); with
variance = -25 the check fails and the AI stays in Chase. -/
theorem claim_C6_counterexample :
    aiNext { AI0 with current := .chase } E0 100 (-25) = .chase ∧
      aiNext { AI0 with current := .chase } E0 100 (-25) ≠ .attack := by
  constructor <;>
    norm_num [aiNext, AI.checkStateTransitions, AI.transitionTo,
      AI_ATTACK_DISTANCE, AI_CHASE_TO_IDLE_DISTANCE] <;> decide

/-- C6 amended: the transition table is exactly as claimed — Idle→Chase on
`distance < 2000 + variance`, Chase→Attack on `distance < 120 + variance`,
else Chase→Idle on `distance > 600 + variance`, Attack→Chase on
`distance > 140` (no variance), Retreat→Chase when the state timer reaches
500 ms, and an enemy at distance 2500 always stays Idle.  But distance 100 in
Chase transitions to Attack exactly when the drawn variance exceeds -20, not
unconditionally. -/
theorem claim_C6_amended (r : AIRec) (e : EState) (d v : ℚ)
    (hv1 : -30 < v) (hv2 : v < 30) :
    (r.current = .idle → (aiNext r e d v = .chase ↔ d < 2000 + v)) ∧
      (r.current = .idle → ¬ d < 2000 + v → aiNext r e d v = .idle) ∧
      (r.current = .chase → (aiNext r e d v = .attack ↔ d < 120 + v)) ∧
      (r.current = .chase → ¬ d < 120 + v →
        (aiNext r e d v = .idle ↔ d > 600 + v)) ∧
      (r.current = .attack → (aiNext r e d v = .chase ↔ d > 140)) ∧
      (r.current = .retreat → (aiNext r e d v = .chase ↔ r.stateTimer ≥ 500)) ∧
      (r.current = .idle → d = 2500 → aiNext r e d v = .idle) ∧
      (r.current = .chase → d = 100 → (aiNext r e d v = .attack ↔ -20 < v)) := by
  refine ⟨?_, ?_, ?_, ?_, ?_, ?_, ?_, ?_⟩
  · intro h
    simp only [aiNext, AI.checkStateTransitions, AI.transitionTo, h,
      AI_IDLE_TO_CHASE_DISTANCE]
    split_ifs with hc <;> simp [hc, h]
  · intro h hc
    simp only [aiNext, AI.checkStateTransitions, AI.transitionTo, h,
      AI_IDLE_TO_CHASE_DISTANCE]
    rw [if_neg hc]
    exact h
  · intro h
    simp only [aiNext, AI.checkStateTransitions, AI.transitionTo, h,
      AI_ATTACK_DISTANCE, AI_CHASE_TO_IDLE_DISTANCE]
    split_ifs with hc hc2 <;> simp [hc, h]
  · intro h hc
    simp only [aiNext, AI.checkStateTransitions, AI.transitionTo, h,
      AI_ATTACK_DISTANCE, AI_CHASE_TO_IDLE_DISTANCE]
    rw [if_neg hc]
    split_ifs with hc2 <;> simp [hc2, h]
  · intro h
    simp only [aiNext, AI.checkStateTransitions, AI.transitionTo, h]
    have h140 : AI_ATTACK_DISTANCE + 20 = (140 : ℚ) := by
      norm_num [AI_ATTACK_DISTANCE]
    rw [h140]
    split_ifs with hc <;> simp [hc, h]
  · intro h
    simp only [aiNext, AI.checkStateTransitions, AI.transitionTo, h,
      AI_RETREAT_DURATION]
    split_ifs with hc <;> simp [hc, h]
  · intro h hd
    subst hd
    simp only [aiNext, AI.checkStateTransitions, AI.transitionTo, h,
      AI_IDLE_TO_CHASE_DISTANCE]
    rw [if_neg (by linarith)]
    exact h
  · intro h hd
    subst hd
    simp only [aiNext, AI.checkStateTransitions, AI.transitionTo, h,
      AI_ATTACK_DISTANCE, AI_CHASE_TO_IDLE_DISTANCE]
    split_ifs with hc hc2
    · simp only [eq_self_iff_true, true_iff]
      linarith
    · exact absurd hc2 (by linarith)
    · have hnv : ¬ (-20 : ℚ) < v := by linarith
      simp [hnv, h]

/-- Witness for C6 amended: at distance 2500 with variance 10 the Idle enemy
stays Idle; at distance 100 in Chase with variance 10 it attacks. -/
theorem claim_C6_amended_witness :
    aiNext { AI0 with current := .idle } E0 2500 10 = .idle ∧
      aiNext { AI0 with current := .chase } E0 100 10 = .attack := by
  have h := claim_C6_amended { AI0 with current := .idle } E0 2500 10
    (by norm_num) (by norm_num)
  have h2 := claim_C6_amended { AI0 with current := .chase } E0 100 10
    (by norm_num) (by norm_num)
  exact ⟨h.2.2.2.2.2.2.1 rfl rfl, (h2.2.2.2.2.2.2.2 rfl rfl).mpr (by norm_num)⟩

/-! ## Claim C8 -/

/-- C8 counterexample: not every scheduled callback is guarded.  The
counter-dodge delayed dodge start (`delayedCall` in `queueCounterDodge`)
invokes `performCounterDodge` with no alive/state check; fired on a dead
player it overwrites the Dead state with Dodging. -/
theorem claim_C8_counterexample :
    (Player.takeDamage { P0 with currentHealth := 5 } 10 50 0).currentState
        = .dead ∧
      (pstep (Player.takeDamage { P0 with currentHealth := 5 } 10 50 0)
          .counterDodgeFire).currentState = .dodging := by
  constructor <;>
    norm_num [Player.takeDamage, Player.triggerHurt, pstep,
      Player.performCounterDodge, P0] <;> decide

/-- C8 amended: the AI's post-attack retreat/chase `setTimeout` continuations
do check a state guard at fire time (they only act if the controller is still
in Attack), and the enemy's warning-completion callback re-checks
`canAttack()` and silently drops the attack otherwise; but the player-side
callbacks (animation completions, the counter-dodge delayed start) are
unguarded — see the counterexample. -/
theorem claim_C8_amended (r : AIRec) (e s : EState) (target : AISt)
    (air : Bool) (vx : ℚ)
    (h1 : r.current ≠ .attack)
    (h2 : Enemy.canAttack { s with pendingAttack := none } = false) :
    AI.postAttackDelayed r e target = (r, e) ∧
      (Enemy.warningFire s air vx).currentState = s.currentState ∧
      (Enemy.warningFire s air vx).currentAttackType = s.currentAttackType ∧
      (Enemy.warningFire s air vx).currentHealth = s.currentHealth := by
  constructor
  · simp [AI.postAttackDelayed, h1]
  · cases hpa : s.pendingAttack with
    | none => simp [Enemy.warningFire, hpa]
    | some atk =>
        simp only [Enemy.warningFire, hpa, Enemy.hideAttackWarning, h2]
        simp

/-- Witness for C8 amended: an Idle-state controller ignores the stale
retreat callback, and a dead enemy's warning completion is dropped. -/
theorem claim_C8_amended_witness :
    AI.postAttackDelayed AI0 E0 .retreat = (AI0, E0) ∧
      (Enemy.warningFire
          { E0 with currentHealth := 0, pendingAttack := some .punch }
          false 0).currentState =
        ({ E0 with currentHealth := 0, pendingAttack := some .punch }
            : EState).currentState :=
  have h := claim_C8_amended AI0 E0
    { E0 with currentHealth := 0, pendingAttack := some .punch } .retreat false 0
    (by decide) (by decide)
  ⟨h.1, h.2.1⟩

/-! ## Claim C5 -/

/-- C5: `Enemy.punch()` and `sidekick()` return `false` and change nothing
when `canAttack()` is false; otherwise each returns `true` and immediately
telegraphs its attack, with `attackExecuteTime = now + ATTACK_WARNING_DURATION`
(so `getTimeUntilAttack` reads a full 500 ms).  When the telegraph completes
(the tween fires at the recorded execute time), the attack executes only if
the enemy can still attack at that moment — the punching enemy then has a live
`getAttackHitbox` on the `punch_extend` active frame, and the sidekicking
enemy performs the jump-sidekick variant exactly when it is airborne or moving
with `|velocity.x| > 50` at execution time — and otherwise the pending attack
is silently dropped with no other state change. -/
theorem claim_C5_attack_warning_protocol (s w : EState) (air : Bool)
    (vx x y : ℚ) :
    (Enemy.canAttack s = false →
      Enemy.punch s = (false, s) ∧ Enemy.sidekick s = (false, s)) ∧
      (Enemy.canAttack s = true →
        (Enemy.punch s).1 = true ∧
          Enemy.isShowingWarning (Enemy.punch s).2 = true ∧
          (Enemy.punch s).2.attackExecuteTime =
            s.clock + ATTACK_WARNING_DURATION ∧
          Enemy.getTimeUntilAttack (Enemy.punch s).2 =
            ATTACK_WARNING_DURATION ∧
          (Enemy.sidekick s).1 = true ∧
          Enemy.isShowingWarning (Enemy.sidekick s).2 = true ∧
          (Enemy.sidekick s).2.attackExecuteTime =
            s.clock + ATTACK_WARNING_DURATION ∧
          Enemy.getTimeUntilAttack (Enemy.sidekick s).2 =
            ATTACK_WARNING_DURATION) ∧
      (w.pendingAttack = some .punch →
        (Enemy.canAttack { w with pendingAttack := none } = true →
          (Enemy.warningFire w air vx).currentState = .attacking ∧
            (Enemy.warningFire w air vx).currentAttackType = some .punch ∧
            Enemy.getAttackHitbox (Enemy.warningFire w air vx) x y .enemyPunch
              .punchExtend ≠ none) ∧
        (Enemy.canAttack { w with pendingAttack := none } = false →
          Enemy.warningFire w air vx = { w with pendingAttack := none })) ∧
      (w.pendingAttack = some .sidekick →
        (Enemy.canAttack { w with pendingAttack := none } = true →
          (Enemy.warningFire w air vx).currentState = .attacking ∧
            ((air = true ∨ |vx| > 50) →
              (Enemy.warningFire w air vx).currentAttackType =
                some .jumpSidekick) ∧
            (¬ (air = true ∨ |vx| > 50) →
              (Enemy.warningFire w air vx).currentAttackType =
                some .sidekick)) ∧
        (Enemy.canAttack { w with pendingAttack := none } = false →
          Enemy.warningFire w air vx = { w with pendingAttack := none })) := by
  refine ⟨?_, ?_, ?_, ?_⟩
  · intro h
    constructor <;> simp [Enemy.punch, Enemy.sidekick, h]
  · intro h
    have hp : s.pendingAttack = none := by
      have h2 := h
      simp only [Enemy.canAttack, Enemy.isShowingWarning, ne_eq,
        Bool.decide_and, Bool.and_eq_true, decide_eq_true_eq,
        Bool.not_eq_true', decide_eq_false_iff_not, not_not] at h2
      exact h2.2.2.2
    refine ⟨?_, ?_, ?_, ?_, ?_, ?_, ?_, ?_⟩
    · simp [Enemy.punch, h, hp, Enemy.isShowingWarning, Enemy.showAttackWarning]
    · simp [Enemy.punch, h, hp, Enemy.isShowingWarning, Enemy.showAttackWarning]
    · simp [Enemy.punch, h, hp, Enemy.isShowingWarning, Enemy.showAttackWarning,
        ATTACK_WARNING_DURATION]
    · simp [Enemy.punch, h, hp, Enemy.isShowingWarning, Enemy.showAttackWarning,
        Enemy.getTimeUntilAttack]
      norm_num [ATTACK_WARNING_DURATION]
    · simp [Enemy.sidekick, h, hp, Enemy.isShowingWarning,
        Enemy.showAttackWarning]
    · simp [Enemy.sidekick, h, hp, Enemy.isShowingWarning,
        Enemy.showAttackWarning]
    · simp [Enemy.sidekick, h, hp, Enemy.isShowingWarning,
        Enemy.showAttackWarning, ATTACK_WARNING_DURATION]
    · simp [Enemy.sidekick, h, hp, Enemy.isShowingWarning,
        Enemy.showAttackWarning, Enemy.getTimeUntilAttack]
      norm_num [ATTACK_WARNING_DURATION]
  · intro hpa
    constructor
    · intro hcan
      simp only [Enemy.warningFire, hpa, Enemy.hideAttackWarning, hcan]
      simp [Enemy.performPunch, Enemy.getAttackHitbox]
    · intro hcan
      simp only [Enemy.warningFire, hpa, Enemy.hideAttackWarning, hcan]
      simp
  · intro hpa
    constructor
    · intro hcan
      refine ⟨?_, ?_, ?_⟩
      · simp [Enemy.warningFire, hpa, Enemy.hideAttackWarning, hcan,
          Enemy.performSidekick]
        split_ifs <;> simp
      · intro hv
        simp [Enemy.warningFire, hpa, Enemy.hideAttackWarning, hcan,
          Enemy.performSidekick, hv]
      · intro hv
        simp [Enemy.warningFire, hpa, Enemy.hideAttackWarning, hcan,
          Enemy.performSidekick, hv]
    · intro hcan
      simp only [Enemy.warningFire, hpa, Enemy.hideAttackWarning, hcan]
      simp

/-- Witness for C5: an attacking enemy rejects `punch()` and `sidekick()`; a
fresh enemy telegraphs both; the telegraph completion executes the punch on
the live enemy, gives a grounded slow enemy the plain sidekick variant, and
drops the attack on a dead enemy. -/
theorem claim_C5_witness :
    (Enemy.punch { E0 with currentState := .attacking } =
        (false, { E0 with currentState := .attacking }) ∧
      Enemy.sidekick { E0 with currentState := .attacking } =
        (false, { E0 with currentState := .attacking })) ∧
      ((Enemy.punch E0).1 = true ∧
        Enemy.isShowingWarning (Enemy.punch E0).2 = true ∧
        (Enemy.sidekick E0).1 = true ∧
        Enemy.isShowingWarning (Enemy.sidekick E0).2 = true) ∧
      (Enemy.warningFire { E0 with pendingAttack := some .punch } false
          0).currentState = .attacking ∧
      (Enemy.warningFire { E0 with pendingAttack := some .sidekick } false
          0).currentAttackType = some .sidekick ∧
      Enemy.warningFire
          { E0 with currentHealth := 0, pendingAttack := some .punch } false 0 =
        { E0 with currentHealth := 0, pendingAttack := none } :=
  have h1 := claim_C5_attack_warning_protocol { E0 with currentState := .attacking }
    E0 false 0 0 0
  have h2 := claim_C5_attack_warning_protocol E0
    { E0 with pendingAttack := some .punch } false 0 0 0
  have h3 := claim_C5_attack_warning_protocol E0
    { E0 with currentHealth := 0, pendingAttack := some .punch } false 0 0 0
  have h4 := claim_C5_attack_warning_protocol E0
    { E0 with pendingAttack := some .sidekick } false 0 0 0
  ⟨⟨(h1.1 (by decide)).1, (h1.1 (by decide)).2⟩,
    ⟨(h2.2.1 (by decide)).1, (h2.2.1 (by decide)).2.1,
      (h2.2.1 (by decide)).2.2.2.2.1, (h2.2.1 (by decide)).2.2.2.2.2.1⟩,
    ((h2.2.2.1 rfl).1 (by decide)).1,
    ((h4.2.2.2 rfl).1 (by decide)).2.2 (by norm_num),
    (h3.2.2.1 rfl).2 (by decide)⟩

/-! ## Claim C2 -/

lemma pframe_comboTimerTick (s : PState) (d : ℚ) :
    PFrameEq s (Player.comboTimerTick s d) := by
  unfold PFrameEq
  simp only [Player.comboTimerTick]
  split_ifs <;> simp

lemma pframe_comboDelayTick (s : PState) (d : ℚ) :
    PFrameEq s (Player.comboDelayTick s d) := by
  unfold PFrameEq
  simp only [Player.comboDelayTick]
  split_ifs <;> simp

lemma comboTimerTick_state (s : PState) (d : ℚ) :
    (Player.comboTimerTick s d).currentState = s.currentState := by
  unfold Player.comboTimerTick
  dsimp only []
  split_ifs <;> rfl

lemma comboDelayTick_state (s : PState) (d : ℚ) :
    (Player.comboDelayTick s d).currentState = s.currentState := by
  unfold Player.comboDelayTick
  split_ifs <;> rfl

lemma invincibilityTick_state (s : PState) (d : ℚ) :
    (Player.invincibilityTick s d).currentState = s.currentState := by
  unfold Player.invincibilityTick
  dsimp only []
  split_ifs <;> rfl

lemma invincibilityTick_queued (s : PState) (d : ℚ) :
    (Player.invincibilityTick s d).counterDodgeQueued = s.counterDodgeQueued := by
  unfold Player.invincibilityTick
  dsimp only []
  split_ifs <;> rfl

lemma invincibilityTick_health (s : PState) (d : ℚ) :
    (Player.invincibilityTick s d).currentHealth = s.currentHealth := by
  unfold Player.invincibilityTick
  dsimp only []
  split_ifs <;> rfl

lemma handleDebugHurt_noop (s : PState) (i : PTick) (h1 : i.debugHurt = false)
    (h2 : i.debugHurtStomach = false) : Player.handleDebugHurt s i = s := by
  simp [Player.handleDebugHurt, h1, h2]

lemma queueCounterDodge_fields (s : PState) (d : ℚ) :
    (Player.queueCounterDodge s d).isInvincible = true ∧
      (Player.queueCounterDodge s d).invincibilityTimer = d + 600 ∧
      ((Player.queueCounterDodge s d).counterDodgeQueued = false → d ≤ 0) := by
  unfold Player.queueCounterDodge Player.performCounterDodge
  dsimp only []
  split_ifs with h
  · exact ⟨rfl, rfl, fun hf => absurd hf (by simp)⟩
  · exact ⟨rfl, rfl, fun _ => le_of_not_lt h⟩

lemma handleCounterDodge_cases (s : PState) (i : PTick) :
    Player.handleCounterDodge s i = s ∨
      (s.counterDodgeQueued = false ∧
        Player.handleCounterDodge s i = Player.performCounterDodge s) ∨
      (s.counterDodgeQueued = false ∧
        Player.handleCounterDodge s i = Player.queueCounterDodge s i.warningT) := by
  unfold Player.handleCounterDodge
  split_ifs with h1 h2 h3
  · exact Or.inl rfl
  · refine Or.inr (Or.inr ⟨?_, rfl⟩)
    push_neg at h1
    exact Bool.not_eq_true _ ▸ (by simpa using h1.2.2.2)
  · refine Or.inr (Or.inl ⟨?_, rfl⟩)
    push_neg at h1
    exact Bool.not_eq_true _ ▸ (by simpa using h1.2.2.2)
  · exact Or.inl rfl

lemma pframe_onAttackComplete (s : PState) :
    PFrameEq s (Player.onAttackComplete s) := by
  unfold PFrameEq Player.onAttackComplete
  cases hb : s.bufferedAttack with
  | none => simp
  | some a =>
      cases a <;>
        simp [Player.performPunch, Player.performUppercut,
          Player.performAerialPunch]

lemma takeDamage_queued (s : PState) (a ax sx : ℚ) :
    (Player.takeDamage s a ax sx).counterDodgeQueued = s.counterDodgeQueued := by
  unfold Player.takeDamage Player.triggerHurt
  dsimp only []
  split_ifs <;> rfl

lemma cdInv_of_frame {T t : ℚ} {s s2 : PState} (h : PFrameEq s s2)
    (hi : CDInv T t s) : CDInv T t s2 := by
  obtain ⟨hinv, htimer, hq, _, _⟩ := h
  refine ⟨fun hlt => ?_, fun hq2 => hi.2 (hq ▸ hq2)⟩
  obtain ⟨h1, h2⟩ := hi.1 hlt
  exact ⟨hinv.trans h1, htimer ▸ h2⟩

/-- One arbitrary admissible tick preserves the counter-dodge invariant. -/
lemma cdInv_tick (T t : ℚ) (s : PState) (i : PTick)
    (hd : 0 ≤ i.delta) (hw : 0 ≤ i.warningT) (h : CDInv T t s) :
    CDInv T (t + i.delta) (Player.update s i) := by
  unfold Player.update
  dsimp only []
  -- the three timer steps
  have hAB : PFrameEq s (Player.comboDelayTick (Player.comboTimerTick s i.delta)
      i.delta) :=
    pframe_trans (pframe_comboTimerTick s i.delta)
      (pframe_comboDelayTick _ i.delta)
  set sb := Player.comboDelayTick (Player.comboTimerTick s i.delta) i.delta
    with hsb
  set sc := Player.invincibilityTick sb i.delta with hsc
  -- invariant after the invincibility decrement, at the advanced time
  have hc : CDInv T (t + i.delta) sc := by
    constructor
    · intro hlt
      have hlt0 : t < T + 600 := by linarith
      obtain ⟨hi1, hi2⟩ := h.1 hlt0
      have hbinv : sb.isInvincible = true := hAB.1 ▸ hi1
      have hbt : T + 600 - t ≤ sb.invincibilityTimer := hAB.2.1 ▸ hi2
      have hpos : sb.invincibilityTimer > 0 := by linarith
      have hnle : ¬ sb.invincibilityTimer - i.delta ≤ 0 := by linarith
      rw [hsc]
      unfold Player.invincibilityTick
      rw [if_pos hpos]
      dsimp only []
      rw [if_neg hnle]
      exact ⟨hbinv, by dsimp only []; linarith⟩
    · intro hq
      rw [hsc, invincibilityTick_queued] at hq
      have := h.2 (hAB.2.2.1 ▸ hq)
      linarith
  -- debug hurt and the rest of the chain preserve the relevant fields
  have hcd2 : CDInv T (t + i.delta) (Player.handleDebugHurt sc i) :=
    cdInv_of_frame (pframe_handleDebugHurt sc i) hc
  set sd := Player.handleDebugHurt sc i with hsd
  -- handleCounterDodge cases
  have hcd3 : CDInv T (t + i.delta) (Player.handleCounterDodge sd i) := by
    rcases handleCounterDodge_cases sd i with heq | ⟨hq, heq⟩ | ⟨hq, heq⟩
    · rw [heq]; exact hcd2
    · rw [heq]
      refine ⟨fun hlt => ?_, fun _ => hcd2.2 hq⟩
      obtain ⟨h1, h2⟩ := hcd2.1 hlt
      exact ⟨h1, h2⟩
    · rw [heq]
      have hTt : T ≤ t + i.delta := hcd2.2 hq
      obtain ⟨q1, q2, q3⟩ := queueCounterDodge_fields sd i.warningT
      refine ⟨fun hlt => ⟨q1, ?_⟩, fun hq2 => hTt⟩
      rw [q2]
      linarith
  exact cdInv_of_frame (pframe_afterCounterDodge _ i) hcd3

/-- The counter-dodge invariant is preserved along any admissible trace. -/
lemma cdInv_run (T : ℚ) (es : List PEvent) (t : ℚ) (hok : CDOk T t es) :
    ∀ s : PState, CDInv T t s → CDInv T (t + traceTime es) (prun s es) := by
  induction hok with
  | nil t =>
      intro s h
      simpa [traceTime, prun] using h
  | tick t i es hd hw hok ih =>
      intro s h
      have h3 := ih (Player.update s i) (cdInv_tick T t s i hd hw h)
      have harr : t + i.delta + traceTime es =
          t + traceTime (PEvent.tick i :: es) := by
        simp [traceTime]
        ring
      rw [harr] at h3
      simpa [prun, pstep] using h3
  | fire t es hT hok ih =>
      intro s h
      have h2 : CDInv T t (Player.performCounterDodge s) := by
        refine ⟨fun hlt => h.1 hlt, fun _ => hT⟩
      have h3 := ih (Player.performCounterDodge s) h2
      simpa [prun, pstep] using h3
  | damage t a ax sx es hok ih =>
      intro s h
      have h2 : CDInv T t (Player.takeDamage s a ax sx) := by
        by_cases hg : s.isInvincible = true ∨ s.currentHealth ≤ 0
        · have : Player.takeDamage s a ax sx = s := by
            unfold Player.takeDamage
            rw [if_pos hg]
          rw [this]
          exact h
        · push_neg at hg
          refine ⟨fun hlt => absurd (h.1 hlt).1 (by simp [hg.1]), fun hq => ?_⟩
          exact h.2 (takeDamage_queued s a ax sx ▸ hq)
      have h3 := ih (Player.takeDamage s a ax sx) h2
      simpa [prun, pstep] using h3
  | attackDone t es hok ih =>
      intro s h
      have h2 : CDInv T t (pstep s .attackAnimComplete) := by
        refine cdInv_of_frame ?_ h
        exact pframe_trans (by simp [PFrameEq]) (pframe_onAttackComplete _)
      have h3 := ih _ h2
      simpa [prun] using h3
  | hurtDone t es hok ih =>
      intro s h
      have h2 : CDInv T t (pstep s .hurtAnimComplete) :=
        cdInv_of_frame (by simp [pstep, PFrameEq]) h
      have h3 := ih _ h2
      simpa [prun] using h3
  | dodgeDone t es hok ih =>
      intro s h
      have h2 : CDInv T t (pstep s .dodgeAnimComplete) :=
        cdInv_of_frame (by simp [pstep, PFrameEq]) h
      have h3 := ih _ h2
      simpa [prun] using h3

/-- C2: if counter-dodge is pressed while the player is not Dodging,
Attacking or Hurt and no counter-dodge is queued, and at that moment the
enemy-warning query is true with `getTimeUntilEnemyAttack() = T`, then the
press tick itself sets `isInvincible = true` with `invincibilityTimer =
T + 600`, and along every admissible continuation (nonnegative tick deltas
and warning readings, the scheduled dodge callback not firing before `T`) the
player is still invincible at any point strictly inside the window of `T +
600` ms after the press — the invincibility lasts the full `T + 600` ms. -/
theorem claim_C2_counter_dodge_invincibility (s : PState) (i : PTick)
    (es : List PEvent)
    (hstate : s.currentState ≠ .dodging ∧ s.currentState ≠ .attacking ∧
      s.currentState ≠ .hurt)
    (hq : s.counterDodgeQueued = false)
    (hdbg1 : i.debugHurt = false) (hdbg2 : i.debugHurtStomach = false)
    (hpress : i.counterDodgePressed = true) (hwarn : i.warningActive = true)
    (hT : 0 ≤ i.warningT)
    (hok : CDOk i.warningT 0 es)
    (hwin : traceTime es < i.warningT + 600) :
    (Player.update s i).isInvincible = true ∧
      (Player.update s i).invincibilityTimer = i.warningT + 600 ∧
      (prun (Player.update s i) es).isInvincible = true := by
  have hs1 : (Player.update s i).isInvincible = true ∧
      (Player.update s i).invincibilityTimer = i.warningT + 600 ∧
      CDInv i.warningT 0 (Player.update s i) := by
    unfold Player.update
    dsimp only []
    set sa := Player.comboTimerTick s i.delta with hsa
    set sb := Player.comboDelayTick sa i.delta with hsb
    set sc := Player.invincibilityTick sb i.delta with hsc
    have hstc : sc.currentState = s.currentState := by
      rw [hsc, invincibilityTick_state, hsb, comboDelayTick_state, hsa,
        comboTimerTick_state]
    have hqc : sc.counterDodgeQueued = false := by
      rw [hsc, invincibilityTick_queued, hsb]
      rw [(pframe_comboDelayTick sa i.delta).2.2.1, hsa,
        (pframe_comboTimerTick s i.delta).2.2.1]
      exact hq
    rw [handleDebugHurt_noop sc i hdbg1 hdbg2]
    have hguard : ¬ (sc.currentState = .dodging ∨ sc.currentState = .attacking ∨
        sc.currentState = .hurt ∨ sc.counterDodgeQueued = true) := by
      rw [hstc, hqc]
      push_neg
      exact ⟨hstate.1, hstate.2.1, hstate.2.2, by simp⟩
    have hcd : Player.handleCounterDodge sc i =
        Player.queueCounterDodge sc i.warningT := by
      unfold Player.handleCounterDodge
      rw [if_neg hguard, if_pos hpress, if_pos hwarn]
    rw [hcd]
    obtain ⟨q1, q2, q3⟩ := queueCounterDodge_fields sc i.warningT
    obtain ⟨f1, f2, f3, _, _⟩ :=
      pframe_afterCounterDodge (Player.queueCounterDodge sc i.warningT) i
    refine ⟨f1.trans q1, f2.trans q2, ⟨fun hlt => ⟨f1.trans q1, ?_⟩,
      fun hq2 => ?_⟩⟩
    · rw [f2.trans q2]
      linarith
    · exact q3 (f3 ▸ hq2)
  obtain ⟨w1, w2, w3⟩ := hs1
  have hrun := cdInv_run i.warningT es 0 hok (Player.update s i) w3
  rw [zero_add] at hrun
  exact ⟨w1, w2, (hrun.1 hwin).1⟩

/-- Witness for C2: pressing counter-dodge on the fresh player during a
warning with 300 ms to go grants invincibility with a 900 ms timer, still
active after a 400 ms tick. -/
theorem claim_C2_witness :
    (Player.update P0 cdPressTick).isInvincible = true ∧
      (Player.update P0 cdPressTick).invincibilityTimer = 300 + 600 ∧
      (prun (Player.update P0 cdPressTick)
          [.tick (restTick 400)]).isInvincible = true := by
  have h := claim_C2_counter_dodge_invincibility P0 cdPressTick
    [.tick (restTick 400)]
    (by refine ⟨?_, ?_, ?_⟩ <;> simp [P0])
    (by simp [P0])
    (by simp [cdPressTick, restTick]) (by simp [cdPressTick, restTick])
    (by simp [cdPressTick, restTick]) (by simp [cdPressTick, restTick])
    (by norm_num [cdPressTick, restTick])
    (CDOk.tick 0 (restTick 400) [] (by norm_num [restTick])
      (by norm_num [restTick]) (CDOk.nil (0 + (restTick 400).delta)))
    (by norm_num [traceTime, cdPressTick, restTick])
  simpa [cdPressTick, restTick] using h

/-! ## Claims C4 and C7: supporting lemmas -/

/-- `Player.update` unfolded into its handler pipeline. -/
lemma update_decomp (s : PState) (i : PTick) :
    Player.update s i =
      Player.updateState
        (Player.handleJump
          (Player.handleMovement
            (Player.handleAttack
              (Player.handleMatrixDodge
                (Player.handleDodge
                  (Player.handleCounterDodge
                    (Player.handleDebugHurt
                      (Player.invincibilityTick
                        (Player.comboDelayTick
                          (Player.comboTimerTick s i.delta) i.delta) i.delta)
                      i) i) i) i) i) i) i) i :=
  rfl

lemma handleCounterDodge_noop (s : PState) (i : PTick)
    (h : i.counterDodgePressed = false) : Player.handleCounterDodge s i = s := by
  unfold Player.handleCounterDodge
  split_ifs with h1 h2 <;> simp_all

lemma handleDodge_noop (s : PState) (i : PTick)
    (h : i.dodgePressed = false) : Player.handleDodge s i = s := by
  unfold Player.handleDodge
  split_ifs with h1 h2 <;> simp_all

lemma handleMatrixDodge_noop (s : PState) (i : PTick)
    (h : i.matrixDodgePressed = false) : Player.handleMatrixDodge s i = s := by
  unfold Player.handleMatrixDodge
  split_ifs with h1 h2 <;> simp_all

lemma handleAttack_noop (s : PState) (i : PTick)
    (h1 : i.punchPressed = false) (h2 : i.uppercutPressed = false) :
    Player.handleAttack s i = s := by
  unfold Player.handleAttack
  split_ifs with g1 g2 g3 g4 g5 g6 g7 <;> simp_all

lemma pjump_trans {s1 s2 s3 : PState} (h1 : PJumpEq s1 s2)
    (h2 : PJumpEq s2 s3) : PJumpEq s1 s3 :=
  ⟨h2.1.trans h1.1, h2.2.1.trans h1.2.1, h2.2.2.trans h1.2.2⟩

lemma pjump_comboTimerTick (s : PState) (d : ℚ) :
    PJumpEq s (Player.comboTimerTick s d) := by
  unfold PJumpEq
  simp only [Player.comboTimerTick]
  split_ifs <;> simp

lemma pjump_comboDelayTick (s : PState) (d : ℚ) :
    PJumpEq s (Player.comboDelayTick s d) := by
  unfold PJumpEq
  simp only [Player.comboDelayTick]
  split_ifs <;> simp

lemma pjump_invincibilityTick (s : PState) (d : ℚ) :
    PJumpEq s (Player.invincibilityTick s d) := by
  unfold PJumpEq
  simp only [Player.invincibilityTick]
  split_ifs <;> simp

lemma pjump_handleMovement (s : PState) (i : PTick) :
    PJumpEq s (Player.handleMovement s i) := by
  unfold PJumpEq
  simp only [Player.handleMovement]
  split_ifs <;> simp

lemma pjump_updateState (s : PState) (i : PTick) :
    PJumpEq s (Player.updateState s i) := by
  unfold PJumpEq
  simp only [Player.updateState]
  split_ifs <;> simp

/-- The pipeline before `handleJump`, on an input with no pressed keys,
preserves the jump fields. -/
lemma pjump_pre (s : PState) (i : PTick)
    (h1 : i.debugHurt = false) (h2 : i.debugHurtStomach = false)
    (h3 : i.counterDodgePressed = false) (h4 : i.dodgePressed = false)
    (h5 : i.matrixDodgePressed = false) (h6 : i.punchPressed = false)
    (h7 : i.uppercutPressed = false) :
    PJumpEq s
      (Player.handleMovement
        (Player.handleAttack
          (Player.handleMatrixDodge
            (Player.handleDodge
              (Player.handleCounterDodge
                (Player.handleDebugHurt
                  (Player.invincibilityTick
                    (Player.comboDelayTick
                      (Player.comboTimerTick s i.delta) i.delta) i.delta)
                  i) i) i) i) i) i) := by
  rw [handleDebugHurt_noop _ i h1 h2, handleCounterDodge_noop _ i h3,
    handleDodge_noop _ i h4, handleMatrixDodge_noop _ i h5,
    handleAttack_noop _ i h6 h7]
  refine pjump_trans (pjump_comboTimerTick s i.delta) ?_
  refine pjump_trans (pjump_comboDelayTick _ i.delta) ?_
  refine pjump_trans (pjump_invincibilityTick _ i.delta) ?_
  exact pjump_handleMovement _ i

lemma handleJump_air (s : PState) (i : PTick) (hp : i.jumpPressed = false)
    (hg : i.grounded = false) (hj : s.jumpsRemaining = 0) :
    Player.handleJump s i =
      if s.jumpBufferTimer > 0 then
        { s with jumpBufferTimer := s.jumpBufferTimer - i.delta }
      else s := by
  unfold Player.handleJump
  dsimp only []
  split_ifs <;> simp_all

lemma handleJump_press_air (s : PState) (i : PTick) (hp : i.jumpPressed = true)
    (hg : i.grounded = false) (hj : s.jumpsRemaining = 0) :
    Player.handleJump s i = { s with jumpBufferTimer := P_JUMP_BUFFER_TIME } := by
  unfold Player.handleJump
  dsimp only []
  split_ifs <;> simp_all

lemma handleJump_land (s : PState) (i : PTick) (hp : i.jumpPressed = false)
    (hg : i.grounded = true) :
    Player.handleJump s i =
      (if (if s.jumpBufferTimer > 0 then
            { s with jumpBufferTimer := s.jumpBufferTimer - i.delta }
          else s).jumpBufferTimer > 0 then
        { s with
          jumpBufferTimer := 0
          jumpsRemaining := P_MAX_JUMPS - 1
          velY := P_JUMP_VELOCITY }
      else
        { (if s.jumpBufferTimer > 0 then
            { s with jumpBufferTimer := s.jumpBufferTimer - i.delta }
          else s) with jumpsRemaining := P_MAX_JUMPS }) := by
  unfold Player.handleJump
  dsimp only []
  split_ifs <;> simp_all [P_MAX_JUMPS]

lemma updateState_jumpBufferTimer (s : PState) (i : PTick) :
    (Player.updateState s i).jumpBufferTimer = s.jumpBufferTimer :=
  (pjump_updateState s i).1

lemma updateState_jumpsRemaining (s : PState) (i : PTick) :
    (Player.updateState s i).jumpsRemaining = s.jumpsRemaining :=
  (pjump_updateState s i).2.1

lemma updateState_velY (s : PState) (i : PTick) :
    (Player.updateState s i).velY = s.velY :=
  (pjump_updateState s i).2.2

/-- One airborne quiet tick: jumps stay exhausted, the vertical velocity is
untouched and the jump buffer ticks down. -/
lemma update_airTick_jump (s : PState) (d : ℚ) (hj : s.jumpsRemaining = 0) :
    (Player.update s (airTick d)).jumpsRemaining = 0 ∧
      (Player.update s (airTick d)).velY = s.velY ∧
      (Player.update s (airTick d)).jumpBufferTimer =
        (if s.jumpBufferTimer > 0 then s.jumpBufferTimer - d
          else s.jumpBufferTimer) := by
  rw [update_decomp]
  have hpre := pjump_pre s (airTick d) rfl rfl rfl rfl rfl rfl rfl
  set sm := Player.handleMovement
    (Player.handleAttack
      (Player.handleMatrixDodge
        (Player.handleDodge
          (Player.handleCounterDodge
            (Player.handleDebugHurt
              (Player.invincibilityTick
                (Player.comboDelayTick
                  (Player.comboTimerTick s (airTick d).delta)
                  (airTick d).delta) (airTick d).delta)
              (airTick d)) (airTick d)) (airTick d)) (airTick d)) (airTick d))
    (airTick d) with hsm
  obtain ⟨hb, hjm, hv⟩ := hpre
  have hD : (airTick d).delta = d := rfl
  have hJ := handleJump_air sm (airTick d) rfl rfl (hjm.trans hj)
  rw [hD] at hJ
  rw [hJ]
  by_cases hbuf : s.jumpBufferTimer > 0
  · have hbuf2 : sm.jumpBufferTimer > 0 := by rw [hb]; exact hbuf
    rw [if_pos hbuf2, if_pos hbuf, updateState_jumpsRemaining,
      updateState_velY, updateState_jumpBufferTimer]
    dsimp only []
    exact ⟨hjm.trans hj, hv, by rw [hb]⟩
  · have hbuf2 : ¬ sm.jumpBufferTimer > 0 := by rw [hb]; exact hbuf
    rw [if_neg hbuf2, if_neg hbuf, updateState_jumpsRemaining,
      updateState_velY, updateState_jumpBufferTimer]
    exact ⟨hjm.trans hj, hv, hb⟩

set_option maxHeartbeats 1000000 in
/-- The buffered-jump press while airborne with jumps exhausted: the buffer
is set to the full 150 ms and nothing else of the jump state changes. -/
lemma update_jumpPress (s : PState) (d : ℚ) (hj : s.jumpsRemaining = 0) :
    (Player.update s (jumpPressTick d)).jumpsRemaining = 0 ∧
      (Player.update s (jumpPressTick d)).velY = s.velY ∧
      (Player.update s (jumpPressTick d)).jumpBufferTimer =
        P_JUMP_BUFFER_TIME := by
  rw [update_decomp]
  have hpre := pjump_pre s (jumpPressTick d) rfl rfl rfl rfl rfl rfl rfl
  set sm := Player.handleMovement
    (Player.handleAttack
      (Player.handleMatrixDodge
        (Player.handleDodge
          (Player.handleCounterDodge
            (Player.handleDebugHurt
              (Player.invincibilityTick
                (Player.comboDelayTick
                  (Player.comboTimerTick s (jumpPressTick d).delta)
                  (jumpPressTick d).delta) (jumpPressTick d).delta)
              (jumpPressTick d)) (jumpPressTick d)) (jumpPressTick d))
          (jumpPressTick d)) (jumpPressTick d))
    (jumpPressTick d) with hsm
  obtain ⟨hb, hjm, hv⟩ := hpre
  have hJ := handleJump_press_air sm (jumpPressTick d) rfl rfl (hjm.trans hj)
  rw [hJ, updateState_jumpsRemaining, updateState_velY,
    updateState_jumpBufferTimer]
  exact ⟨hjm.trans hj, hv, rfl⟩

set_option maxHeartbeats 1000000 in
/-- The landing tick (grounded, no presses): jumps reset to the maximum, and
the buffered jump fires exactly when the decremented buffer is still
positive. -/
lemma update_restTick_land (s : PState) (d : ℚ) :
    ((if s.jumpBufferTimer > 0 then s.jumpBufferTimer - d
        else s.jumpBufferTimer) > 0 →
      (Player.update s (restTick d)).jumpsRemaining = P_MAX_JUMPS - 1 ∧
        (Player.update s (restTick d)).velY = P_JUMP_VELOCITY ∧
        (Player.update s (restTick d)).jumpBufferTimer = 0) ∧
      (¬ (if s.jumpBufferTimer > 0 then s.jumpBufferTimer - d
          else s.jumpBufferTimer) > 0 →
        (Player.update s (restTick d)).jumpsRemaining = P_MAX_JUMPS ∧
          (Player.update s (restTick d)).velY = s.velY ∧
          (Player.update s (restTick d)).jumpBufferTimer =
            (if s.jumpBufferTimer > 0 then s.jumpBufferTimer - d
              else s.jumpBufferTimer)) := by
  rw [update_decomp]
  have hpre := pjump_pre s (restTick d) rfl rfl rfl rfl rfl rfl rfl
  set sm := Player.handleMovement
    (Player.handleAttack
      (Player.handleMatrixDodge
        (Player.handleDodge
          (Player.handleCounterDodge
            (Player.handleDebugHurt
              (Player.invincibilityTick
                (Player.comboDelayTick
                  (Player.comboTimerTick s (restTick d).delta)
                  (restTick d).delta) (restTick d).delta)
              (restTick d)) (restTick d)) (restTick d)) (restTick d))
      (restTick d))
    (restTick d) with hsm
  obtain ⟨hb, hjm, hv⟩ := hpre
  have hD : (restTick d).delta = d := rfl
  have hJ := handleJump_land sm (restTick d) rfl rfl
  rw [hD] at hJ
  rw [hJ]
  by_cases hbuf : s.jumpBufferTimer > 0
  · have hbuf2 : sm.jumpBufferTimer > 0 := by rw [hb]; exact hbuf
    rw [if_pos hbuf2, if_pos hbuf]
    have hA : ({ sm with jumpBufferTimer := sm.jumpBufferTimer - d }
        : PState).jumpBufferTimer = s.jumpBufferTimer - d := by
      dsimp only []
      rw [hb]
    constructor
    · intro hfire
      rw [if_pos (by rw [hA]; exact hfire), updateState_jumpsRemaining,
        updateState_velY, updateState_jumpBufferTimer]
      exact ⟨rfl, rfl, rfl⟩
    · intro hfire
      rw [if_neg (by rw [hA]; exact hfire), updateState_jumpsRemaining,
        updateState_velY, updateState_jumpBufferTimer]
      refine ⟨rfl, hv, ?_⟩
      dsimp only []
      rw [hb]
  · have hbuf2 : ¬ sm.jumpBufferTimer > 0 := by rw [hb]; exact hbuf
    rw [if_neg hbuf2, if_neg hbuf]
    have hA : sm.jumpBufferTimer = s.jumpBufferTimer := hb
    constructor
    · intro hfire
      rw [if_pos (by rw [hA]; exact hfire), updateState_jumpsRemaining,
        updateState_velY, updateState_jumpBufferTimer]
      exact ⟨rfl, rfl, rfl⟩
    · intro hfire
      rw [if_neg (by rw [hA]; exact hfire), updateState_jumpsRemaining,
        updateState_velY, updateState_jumpBufferTimer]
      exact ⟨rfl, hv, hb⟩

lemma midair_nonneg (mid : List PEvent) (tm : ℚ) (h : MidAir mid tm) :
    0 ≤ tm := by
  induction h with
  | nil => norm_num
  | tick d es t hd h ih => linarith

/-- The jump-buffer invariant is preserved across the airborne wait. -/
lemma jinv_run (mid : List PEvent) (tm : ℚ) (hmid : MidAir mid tm) :
    ∀ (t : ℚ) (s0 s : PState), 0 ≤ t → JInv t s0 s →
      JInv (t + tm) s0 (prun s mid) := by
  induction hmid with
  | nil =>
      intro t s0 s ht h
      simpa [prun] using h
  | tick d es t2 hd hmid ih =>
      intro t s0 s ht h
      have hstep : JInv (t + d) s0 (Player.update s (airTick d)) := by
        obtain ⟨hjm, hv, hlt, hge⟩ := h
        obtain ⟨j1, j2, j3⟩ := update_airTick_jump s d hjm
        refine ⟨j1, j2.trans hv, ?_, ?_⟩
        · intro hlt2
          have ht2 : t < 150 := by linarith
          rw [j3, hlt ht2, if_pos (by linarith)]
          ring
        · intro hge2
          by_cases hc : t < 150
          · rw [j3, hlt hc, if_pos (by linarith)]
            linarith
          · push_neg at hc
            have hb := hge hc
            rw [j3, if_neg (by linarith)]
            exact hb
      have h2 := ih (t + d) s0 _ (by linarith) hstep
      have harr : t + d + t2 = t + (d + t2) := by ring
      rw [harr] at h2
      simpa [prun, pstep] using h2

/-- C7 counterexample: a jump press made exactly 150 ms before landing does
NOT trigger a jump.  With jumps exhausted, pressing jump, waiting 134 ms
airborne and landing on a 16 ms tick (150 ms total) leaves the buffer at
exactly 0 at the grounded check, so no jump fires: the vertical velocity is
never written and the jump count sits at the freshly reset maximum — the
claim says a press up to 150 ms before landing still triggers the jump. -/
theorem claim_C7_counterexample :
    (Player.update (Player.update (Player.update
          { P0 with jumpsRemaining := 0 } (jumpPressTick 16)) (airTick 134))
        (restTick 16)).velY = 0 ∧
      (Player.update (Player.update (Player.update
            { P0 with jumpsRemaining := 0 } (jumpPressTick 16)) (airTick 134))
          (restTick 16)).jumpsRemaining = P_MAX_JUMPS ∧
      P_JUMP_VELOCITY ≠ 0 := by
  set s0 : PState := { P0 with jumpsRemaining := 0 } with hs0
  have h1 := update_jumpPress s0 16 rfl
  set s1 := Player.update s0 (jumpPressTick 16) with hs1
  have h2 := update_airTick_jump s1 134 h1.1
  set s2 := Player.update s1 (airTick 134) with hs2
  have h3 := update_restTick_land s2 16
  have hb1 : s1.jumpBufferTimer = 150 := by
    rw [h1.2.2]
    norm_num [P_JUMP_BUFFER_TIME]
  have hb2 : s2.jumpBufferTimer = 16 := by
    rw [h2.2.2, hb1]
    norm_num
  have hcond : ¬ (if s2.jumpBufferTimer > 0 then s2.jumpBufferTimer - 16
      else s2.jumpBufferTimer) > 0 := by
    rw [hb2]
    norm_num
  obtain ⟨j1, j2, j3⟩ := h3.2 hcond
  refine ⟨?_, j1, by norm_num [P_JUMP_VELOCITY]⟩
  rw [j2, h2.2.1, h1.2.1]
  rfl

/-- C7 amended: with jumps exhausted, a jump pressed while airborne sets the
150 ms buffer; at a landing occurring a total of `tm + d1` ms later, the jump
fires exactly when `tm + d1` is strictly less than 150 ms (velocity written
to JUMP_VELOCITY, one jump consumed from the freshly reset pair, buffer
cleared); at 150 ms or more no jump fires, and the jump count still resets
to the maximum of 2 the instant the player is grounded. -/
theorem claim_C7_amended (s : PState) (d0 : ℚ) (mid : List PEvent)
    (tm d1 : ℚ) (hj : s.jumpsRemaining = 0) (hmid : MidAir mid tm)
    (hd1 : 0 ≤ d1) :
    (tm + d1 < 150 →
      (Player.update (prun (Player.update s (jumpPressTick d0)) mid)
          (restTick d1)).velY = P_JUMP_VELOCITY ∧
        (Player.update (prun (Player.update s (jumpPressTick d0)) mid)
            (restTick d1)).jumpsRemaining = P_MAX_JUMPS - 1 ∧
        (Player.update (prun (Player.update s (jumpPressTick d0)) mid)
            (restTick d1)).jumpBufferTimer = 0) ∧
      (150 ≤ tm + d1 →
        (Player.update (prun (Player.update s (jumpPressTick d0)) mid)
            (restTick d1)).velY = s.velY ∧
          (Player.update (prun (Player.update s (jumpPressTick d0)) mid)
              (restTick d1)).jumpsRemaining = P_MAX_JUMPS ∧
          (Player.update (prun (Player.update s (jumpPressTick d0)) mid)
              (restTick d1)).jumpBufferTimer ≤ 0) := by
  have h1 := update_jumpPress s d0 hj
  have hJ0 : JInv 0 s (Player.update s (jumpPressTick d0)) := by
    refine ⟨h1.1, h1.2.1, fun _ => ?_, fun hc => absurd hc (by norm_num)⟩
    rw [h1.2.2]
    norm_num [P_JUMP_BUFFER_TIME]
  have hrun := jinv_run mid tm hmid 0 s _ (le_refl 0) hJ0
  rw [zero_add] at hrun
  obtain ⟨k1, k2, k3, k4⟩ := hrun
  have htm := midair_nonneg mid tm hmid
  set s2 := prun (Player.update s (jumpPressTick d0)) mid with hs2
  have h3 := update_restTick_land s2 d1
  constructor
  · intro hwin
    have htm150 : tm < 150 := by linarith
    have hb : s2.jumpBufferTimer = 150 - tm := k3 htm150
    have hcond : (if s2.jumpBufferTimer > 0 then s2.jumpBufferTimer - d1
        else s2.jumpBufferTimer) > 0 := by
      rw [hb, if_pos (by linarith)]
      linarith
    obtain ⟨j1, j2, j3⟩ := h3.1 hcond
    exact ⟨j2, j1, j3⟩
  · intro hge
    have hcond : ¬ (if s2.jumpBufferTimer > 0 then s2.jumpBufferTimer - d1
        else s2.jumpBufferTimer) > 0 := by
      by_cases htc : tm < 150
      · rw [k3 htc, if_pos (by linarith), not_lt]
        linarith
      · push_neg at htc
        have hb := k4 htc
        rw [if_neg (by linarith), not_lt]
        exact hb
    obtain ⟨j1, j2, j3⟩ := h3.2 hcond
    refine ⟨j2.trans k2, j1, ?_⟩
    rw [j3]
    split_ifs with hsb
    · by_cases htc : tm < 150
      · rw [k3 htc]
        linarith
      · push_neg at htc
        exact absurd hsb (not_lt.mpr (k4 htc))
    · exact le_of_not_lt hsb

/-- Witness for C7 amended: a press 120 ms before landing jumps on landing;
a press exactly 150 ms before landing does not, but the jump count is reset. -/
theorem claim_C7_amended_witness :
    ((Player.update (prun (Player.update { P0 with jumpsRemaining := 0 }
          (jumpPressTick 16)) [.tick (airTick 100)]) (restTick 20)).velY =
        P_JUMP_VELOCITY ∧
      (Player.update (prun (Player.update { P0 with jumpsRemaining := 0 }
          (jumpPressTick 16)) [.tick (airTick 100)])
        (restTick 20)).jumpsRemaining = P_MAX_JUMPS - 1) ∧
      ((Player.update (prun (Player.update { P0 with jumpsRemaining := 0 }
            (jumpPressTick 16)) [.tick (airTick 100)]) (restTick 50)).velY =
          ({ P0 with jumpsRemaining := 0 } : PState).velY ∧
        (Player.update (prun (Player.update { P0 with jumpsRemaining := 0 }
              (jumpPressTick 16)) [.tick (airTick 100)])
            (restTick 50)).jumpsRemaining = P_MAX_JUMPS) := by
  have hmid : MidAir [.tick (airTick 100)] (100 + 0) :=
    MidAir.tick 100 [] 0 (by norm_num) MidAir.nil
  have ha := claim_C7_amended { P0 with jumpsRemaining := 0 } 16
    [.tick (airTick 100)] (100 + 0) 20 rfl hmid (by norm_num)
  have hb := claim_C7_amended { P0 with jumpsRemaining := 0 } 16
    [.tick (airTick 100)] (100 + 0) 50 rfl hmid (by norm_num)
  obtain ⟨a1, a2, _⟩ := ha.1 (by norm_num)
  obtain ⟨b1, b2, _⟩ := hb.2 (by norm_num)
  exact ⟨⟨a1, a2⟩, ⟨b1, b2⟩⟩

/-! ## Claim C4 -/

lemma pcombo_trans {s1 s2 s3 : PState} (h1 : PComboEq s1 s2)
    (h2 : PComboEq s2 s3) : PComboEq s1 s3 :=
  ⟨h2.1.trans h1.1, h2.2.1.trans h1.2.1, h2.2.2.1.trans h1.2.2.1,
    h2.2.2.2.1.trans h1.2.2.2.1, h2.2.2.2.2.1.trans h1.2.2.2.2.1,
    h2.2.2.2.2.2.trans h1.2.2.2.2.2⟩

lemma pcombo_invincibilityTick (s : PState) (d : ℚ) :
    PComboEq s (Player.invincibilityTick s d) := by
  unfold PComboEq
  simp only [Player.invincibilityTick]
  split_ifs <;> simp

lemma pcombo_handleMovement (s : PState) (i : PTick) :
    PComboEq s (Player.handleMovement s i) := by
  unfold PComboEq
  simp only [Player.handleMovement]
  split_ifs <;> simp

lemma pcombo_handleJump (s : PState) (i : PTick) :
    PComboEq s (Player.handleJump s i) := by
  unfold PComboEq
  simp only [Player.handleJump]
  split_ifs <;> simp

lemma comboTimerTick_others (s : PState) (d : ℚ) :
    (Player.comboTimerTick s d).comboDelayTimer = s.comboDelayTimer ∧
      (Player.comboTimerTick s d).bufferedAttack = s.bufferedAttack ∧
      (Player.comboTimerTick s d).currentState = s.currentState ∧
      (Player.comboTimerTick s d).currentAttackType = s.currentAttackType := by
  simp only [Player.comboTimerTick]
  split_ifs <;> simp

lemma comboDelayTick_others (s : PState) (d : ℚ) :
    (Player.comboDelayTick s d).comboCount = s.comboCount ∧
      (Player.comboDelayTick s d).comboTimer = s.comboTimer ∧
      (Player.comboDelayTick s d).bufferedAttack = s.bufferedAttack ∧
      (Player.comboDelayTick s d).currentState = s.currentState ∧
      (Player.comboDelayTick s d).currentAttackType = s.currentAttackType := by
  simp only [Player.comboDelayTick]
  split_ifs <;> simp

lemma updateState_combo (s : PState) (i : PTick) :
    (Player.updateState s i).comboCount = s.comboCount ∧
      (Player.updateState s i).comboTimer = s.comboTimer ∧
      (Player.updateState s i).comboDelayTimer = s.comboDelayTimer ∧
      (Player.updateState s i).bufferedAttack = s.bufferedAttack ∧
      (Player.updateState s i).currentAttackType = s.currentAttackType := by
  simp only [Player.updateState]
  split_ifs <;> simp

lemma updateState_locked (s : PState) (i : PTick)
    (h : s.currentState = .attacking) :
    (Player.updateState s i).currentState = .attacking := by
  unfold Player.updateState
  rw [if_pos (Or.inl h)]
  exact h

lemma updateState_rest_idle (s : PState) (d : ℚ)
    (h : s.currentState = .idle) :
    (Player.updateState s (restTick d)).currentState = .idle := by
  unfold Player.updateState
  rw [if_neg (by simp [h])]
  norm_num [restTick]

/-- The combo fields after the two timer decrements of one tick, expressed
against the invariant. -/
lemma comboTicks_evolution (s : PState) (d t : ℚ) (hd : 0 ≤ d) (ht : 0 ≤ t)
    (hT : C4Timers t s) :
    C4Timers (t + d)
      (Player.comboDelayTick (Player.comboTimerTick s d) d) := by
  obtain ⟨hbuf, hlt8, hge8, hlt2, hge2⟩ := hT
  obtain ⟨o1, o2, o3, o4⟩ := comboTimerTick_others s d
  obtain ⟨p1, p2, p3, p4, p5⟩ :=
    comboDelayTick_others (Player.comboTimerTick s d) d
  refine ⟨?_, ?_, ?_, ?_, ?_⟩
  · rw [p3, o2]
    exact hbuf
  · intro hw
    have hc : t < 800 := by linarith
    obtain ⟨hc1, hc2⟩ := hlt8 hc
    have hpos : s.comboTimer > 0 := by rw [hc2]; linarith
    have hne : ¬ s.comboTimer - d ≤ 0 := by rw [hc2]; push_neg; linarith
    have hA : Player.comboTimerTick s d =
        { s with comboTimer := s.comboTimer - d } := by
      unfold Player.comboTimerTick
      rw [if_pos hpos]
      dsimp only []
      rw [if_neg hne]
    rw [p1, p2, hA]
    refine ⟨hc1, ?_⟩
    dsimp only []
    rw [hc2]
    ring
  · intro hw
    rw [p1, p2]
    by_cases hc : t < 800
    · obtain ⟨hc1, hc2⟩ := hlt8 hc
      have hpos : s.comboTimer > 0 := by rw [hc2]; linarith
      have hle : s.comboTimer - d ≤ 0 := by rw [hc2]; linarith
      have hA : Player.comboTimerTick s d =
          { s with comboTimer := s.comboTimer - d, comboCount := 0 } := by
        unfold Player.comboTimerTick
        rw [if_pos hpos]
        dsimp only []
        rw [if_pos hle]
      rw [hA]
      exact ⟨rfl, hle⟩
    · push_neg at hc
      obtain ⟨hc1, hc2⟩ := hge8 hc
      have hnpos : ¬ s.comboTimer > 0 := by linarith
      have hA : Player.comboTimerTick s d = s := by
        unfold Player.comboTimerTick
        rw [if_neg hnpos]
      rw [hA]
      exact ⟨hc1, hc2⟩
  · intro hw
    have hc : t < 250 := by linarith
    have hpos : (Player.comboTimerTick s d).comboDelayTimer > 0 := by
      rw [o1, hlt2 hc]
      linarith
    unfold Player.comboDelayTick
    rw [if_pos hpos]
    dsimp only []
    rw [o1, hlt2 hc]
    ring
  · intro hw
    by_cases hc : t < 250
    · have hpos : (Player.comboTimerTick s d).comboDelayTimer > 0 := by
        rw [o1, hlt2 hc]
        linarith
      unfold Player.comboDelayTick
      rw [if_pos hpos]
      dsimp only []
      rw [o1, hlt2 hc]
      linarith
    · push_neg at hc
      have hval := hge2 hc
      have hnpos : ¬ (Player.comboTimerTick s d).comboDelayTimer > 0 := by
        rw [o1]
        linarith
      unfold Player.comboDelayTick
      rw [if_neg hnpos, o1]
      exact hval

/-- One quiet grounded tick of the combo wait. -/
lemma c4_tick (s : PState) (d t : ℚ) (hd : 0 ≤ d) (ht : 0 ≤ t)
    (hT : C4Timers t s) (hB : AtkB s ∨ IdlB s) :
    C4Timers (t + d) (Player.update s (restTick d)) ∧
      (AtkB s → AtkB (Player.update s (restTick d))) ∧
      (IdlB s → IdlB (Player.update s (restTick d))) := by
  rw [update_decomp]
  have hD : (restTick d).delta = d := rfl
  rw [hD]
  set sb := Player.comboDelayTick (Player.comboTimerTick s d) d with hsb
  have hTB : C4Timers (t + d) sb := comboTicks_evolution s d t hd ht hT
  have hstsb : sb.currentState = s.currentState := by
    rw [hsb, (comboDelayTick_others _ d).2.2.2.1,
      (comboTimerTick_others s d).2.2.1]
  have htysb : sb.currentAttackType = s.currentAttackType := by
    rw [hsb, (comboDelayTick_others _ d).2.2.2.2,
      (comboTimerTick_others s d).2.2.2]
  have hCinv := pcombo_invincibilityTick sb d
  set sc := Player.invincibilityTick sb d with hsc
  rw [handleDebugHurt_noop sc (restTick d) rfl rfl,
    handleCounterDodge_noop sc (restTick d) rfl,
    handleDodge_noop sc (restTick d) rfl,
    handleMatrixDodge_noop sc (restTick d) rfl,
    handleAttack_noop sc (restTick d) rfl rfl]
  have hCm := pcombo_handleMovement sc (restTick d)
  set sd := Player.handleMovement sc (restTick d) with hsd
  have hCj := pcombo_handleJump sd (restTick d)
  set se := Player.handleJump sd (restTick d) with hse
  have hCse : PComboEq sb se := pcombo_trans hCinv (pcombo_trans hCm hCj)
  obtain ⟨e1, e2, e3, e4, e5, e6⟩ := hCse
  obtain ⟨u1, u2, u3, u4, u5⟩ := updateState_combo se (restTick d)
  refine ⟨⟨?_, ?_, ?_, ?_, ?_⟩, ?_, ?_⟩
  · rw [u4, e4]
    exact hTB.1
  · intro hw
    exact ⟨by rw [u1, e1]; exact (hTB.2.1 hw).1,
      by rw [u2, e2]; exact (hTB.2.1 hw).2⟩
  · intro hw
    exact ⟨by rw [u1, e1]; exact (hTB.2.2.1 hw).1,
      by rw [u2, e2]; exact (hTB.2.2.1 hw).2⟩
  · intro hw
    rw [u3, e3]
    exact hTB.2.2.2.1 hw
  · intro hw
    rw [u3, e3]
    exact hTB.2.2.2.2 hw
  · intro hA
    refine ⟨?_, ?_⟩
    · apply updateState_locked
      rw [e5, hstsb]
      exact hA.1
    · rw [u5, e6, htysb]
      exact hA.2
  · intro hI
    refine ⟨?_, ?_⟩
    · apply updateState_rest_idle
      rw [e5, hstsb]
      exact hI.1
    · rw [u5, e6, htysb]
      exact hI.2

/-- The punch animation-completion callback during the combo wait. -/
lemma c4_attackDone (s : PState) (t : ℚ) (hT : C4Timers t s) :
    C4Timers t (pstep s .attackAnimComplete) ∧
      IdlB (pstep s .attackAnimComplete) := by
  have hbuf : s.bufferedAttack = none := hT.1
  have hstep : pstep s .attackAnimComplete =
      { s with currentAttackType := none, currentState := .idle } := by
    show Player.onAttackComplete { s with currentAttackType := none } = _
    unfold Player.onAttackComplete
    split
    · rename_i a heq
      dsimp only [] at heq
      rw [hbuf] at heq
      exact absurd heq (by simp)
    · rfl
  rw [hstep]
  exact ⟨⟨hT.1, hT.2.1, hT.2.2.1, hT.2.2.2.1, hT.2.2.2.2⟩, rfl, rfl⟩

/-- The combo invariant is preserved across the wait between the two punch
presses; the idle branch persists, and is reached whenever the completion
callback occurred. -/
lemma c4_run (mid : List PEvent) (tm : ℚ) (hmid : MidC4 mid tm) :
    ∀ (t : ℚ) (s : PState), 0 ≤ t → C4Timers t s → (AtkB s ∨ IdlB s) →
      C4Timers (t + tm) (prun s mid) ∧
        (AtkB (prun s mid) ∨ IdlB (prun s mid)) ∧
        (IdlB s → IdlB (prun s mid)) ∧
        (PEvent.attackAnimComplete ∈ mid → IdlB (prun s mid)) := by
  induction hmid with
  | nil =>
      intro t s ht hT hB
      refine ⟨by simpa [prun] using hT, by simpa [prun] using hB,
        fun h => by simpa [prun] using h, fun hmem => ?_⟩
      exact absurd hmem (List.not_mem_nil _)
  | tick d es t2 hd hmid ih =>
      intro t s ht hT hB
      obtain ⟨k1, k2, k3⟩ := c4_tick s d t hd ht hT hB
      have hB2 : AtkB (Player.update s (restTick d)) ∨
          IdlB (Player.update s (restTick d)) := by
        rcases hB with hA | hI
        · exact Or.inl (k2 hA)
        · exact Or.inr (k3 hI)
      have hIH := ih (t + d) _ (by linarith) k1 hB2
      have harr : t + d + t2 = t + (d + t2) := by ring
      rw [harr] at hIH
      refine ⟨by simpa [prun, pstep] using hIH.1,
        by simpa [prun, pstep] using hIH.2.1, fun hI => ?_, fun hmem => ?_⟩
      · have := hIH.2.2.1 (k3 hI)
        simpa [prun, pstep] using this
      · have hmem2 : PEvent.attackAnimComplete ∈ es := by
          simpa using hmem
        have := hIH.2.2.2 hmem2
        simpa [prun, pstep] using this
  | done es t2 hmid ih =>
      intro t s ht hT hB
      obtain ⟨k1, k2⟩ := c4_attackDone s t hT
      have hIH := ih t _ ht k1 (Or.inr k2)
      refine ⟨by simpa [prun] using hIH.1, by simpa [prun] using hIH.2.1,
        fun _ => ?_, fun _ => ?_⟩
      · have := hIH.2.2.1 k2
        simpa [prun] using this
      · have := hIH.2.2.1 k2
        simpa [prun] using this

lemma midc4_nonneg (mid : List PEvent) (tm : ℚ) (h : MidC4 mid tm) :
    0 ≤ tm := by
  induction h with
  | nil => norm_num
  | tick d es t hd h ih => linarith
  | done es t h ih => exact ih

/-- The first punch press on an idle player with no combo armed: a fresh
Punch starts and the combo state is armed. -/
lemma update_punchPress_first (s : PState) (d : ℚ)
    (hst : s.currentState = .idle) (hcc : s.comboCount = 0)
    (hct : ¬ s.comboTimer > 0) (hcdt : ¬ s.comboDelayTimer > 0)
    (hbuf : s.bufferedAttack = none) :
    C4Timers 0 (Player.update s (punchTick d)) ∧
      AtkB (Player.update s (punchTick d)) := by
  rw [update_decomp]
  have hD : (punchTick d).delta = d := rfl
  rw [hD]
  have hA : Player.comboTimerTick s d = s := by
    unfold Player.comboTimerTick
    rw [if_neg hct]
  have hB : Player.comboDelayTick s d = s := by
    unfold Player.comboDelayTick
    rw [if_neg hcdt]
  rw [hA, hB]
  have hCinv := pcombo_invincibilityTick s d
  set sc := Player.invincibilityTick s d with hsc
  obtain ⟨c1, c2, c3, c4, c5, c6⟩ := hCinv
  rw [handleDebugHurt_noop sc (punchTick d) rfl rfl,
    handleCounterDodge_noop sc (punchTick d) rfl,
    handleDodge_noop sc (punchTick d) rfl,
    handleMatrixDodge_noop sc (punchTick d) rfl]
  have g1 : ¬ sc.currentState = PlayerSt.hurt := by
    rw [c5, hst]
    simp
  have g4 : ¬ sc.currentState = PlayerSt.attacking := by
    rw [c5, hst]
    simp
  have hatk : Player.handleAttack sc (punchTick d) = Player.performPunch sc := by
    unfold Player.handleAttack
    dsimp only []
    rw [if_neg g1, if_neg (fun h => h.1 rfl),
      if_neg (fun h => by rw [c1, hcc] at h; exact absurd h.2.1 (by norm_num)),
      if_neg g4, if_neg (by simp [punchTick, restTick]),
      if_pos (show (punchTick d).punchPressed = true from rfl)]
  rw [hatk]
  have hCm := pcombo_handleMovement (Player.performPunch sc) (punchTick d)
  set sd := Player.handleMovement (Player.performPunch sc) (punchTick d)
    with hsd
  have hCj := pcombo_handleJump sd (punchTick d)
  set se := Player.handleJump sd (punchTick d) with hse
  have hCse : PComboEq (Player.performPunch sc) se := pcombo_trans hCm hCj
  obtain ⟨e1, e2, e3, e4, e5, e6⟩ := hCse
  obtain ⟨u1, u2, u3, u4, u5⟩ := updateState_combo se (punchTick d)
  have hstA : se.currentState = PlayerSt.attacking := by
    rw [e5]
    rfl
  refine ⟨⟨?_, ?_, ?_, ?_, ?_⟩, ?_, ?_⟩
  · rw [u4, e4]
    show sc.bufferedAttack = none
    rw [c4]
    exact hbuf
  · intro hw
    constructor
    · rw [u1, e1]
      rfl
    · rw [u2, e2]
      show P_COMBO_WINDOW = 800 - 0
      norm_num [P_COMBO_WINDOW]
  · intro hw
    exact absurd hw (by norm_num)
  · intro hw
    rw [u3, e3]
    show P_COMBO_MIN_DELAY = 250 - 0
    norm_num [P_COMBO_MIN_DELAY]
  · intro hw
    exact absurd hw (by norm_num)
  · exact updateState_locked se (punchTick d) hstA
  · rw [u5, e6]
    rfl

/-- The second punch press: an Uppercut inside the combo window (after the
minimum delay), a fresh Punch after the window has expired. -/
lemma update_punchPress_second (s : PState) (d t : ℚ) (hd : 0 ≤ d)
    (ht : 0 ≤ t) (hT : C4Timers t s) (hB : AtkB s ∨ IdlB s) :
    (250 ≤ t + d → t + d < 800 →
      (Player.update s (punchTick d)).currentAttackType = some .uppercut ∧
        (Player.update s (punchTick d)).currentState = .attacking ∧
        (Player.update s (punchTick d)).comboCount = 0 ∧
        (Player.update s (punchTick d)).comboTimer = 0) ∧
      (800 ≤ t + d → IdlB s →
        (Player.update s (punchTick d)).currentAttackType = some .punch ∧
          (Player.update s (punchTick d)).currentState = .attacking ∧
          (Player.update s (punchTick d)).comboCount = 1 ∧
          (Player.update s (punchTick d)).comboTimer = P_COMBO_WINDOW ∧
          (Player.update s (punchTick d)).comboDelayTimer =
            P_COMBO_MIN_DELAY) := by
  rw [update_decomp]
  have hD : (punchTick d).delta = d := rfl
  rw [hD]
  set sb := Player.comboDelayTick (Player.comboTimerTick s d) d with hsb
  have hTB : C4Timers (t + d) sb := comboTicks_evolution s d t hd ht hT
  have hstsb : sb.currentState = s.currentState := by
    rw [hsb, (comboDelayTick_others _ d).2.2.2.1,
      (comboTimerTick_others s d).2.2.1]
  have hCinv := pcombo_invincibilityTick sb d
  set sc := Player.invincibilityTick sb d with hsc
  obtain ⟨c1, c2, c3, c4, c5, c6⟩ := hCinv
  rw [handleDebugHurt_noop sc (punchTick d) rfl rfl,
    handleCounterDodge_noop sc (punchTick d) rfl,
    handleDodge_noop sc (punchTick d) rfl,
    handleMatrixDodge_noop sc (punchTick d) rfl]
  have g1 : ¬ sc.currentState = PlayerSt.hurt := by
    rw [c5, hstsb]
    rcases hB with hAt | hId
    · rw [hAt.1]
      simp
    · rw [hId.1]
      simp
  constructor
  · intro h250 h800
    have hcount : sc.comboCount = 1 := by
      rw [c1]
      exact (hTB.2.1 h800).1
    have hdelay : sc.comboDelayTimer ≤ 0 := by
      rw [c3]
      exact hTB.2.2.2.2 h250
    have hatk : Player.handleAttack sc (punchTick d) =
        { (Player.performUppercut { sc with bufferedAttack := none }) with
          comboCount := 0, comboTimer := 0 } := by
      unfold Player.handleAttack
      dsimp only []
      rw [if_neg g1, if_neg (fun h => h.1 rfl), if_pos ⟨rfl, hcount, hdelay⟩]
    rw [hatk]
    set sU : PState :=
      { (Player.performUppercut { sc with bufferedAttack := none }) with
        comboCount := 0, comboTimer := 0 } with hsU
    have hCm := pcombo_handleMovement sU (punchTick d)
    set sd2 := Player.handleMovement sU (punchTick d) with hsd2
    have hCj := pcombo_handleJump sd2 (punchTick d)
    set se := Player.handleJump sd2 (punchTick d) with hse
    have hCse : PComboEq sU se := pcombo_trans hCm hCj
    obtain ⟨e1, e2, e3, e4, e5, e6⟩ := hCse
    obtain ⟨u1, u2, u3, u4, u5⟩ := updateState_combo se (punchTick d)
    have hstA : se.currentState = PlayerSt.attacking := by
      rw [e5]
      rfl
    refine ⟨?_, ?_, ?_, ?_⟩
    · rw [u5, e6]
      rfl
    · exact updateState_locked se (punchTick d) hstA
    · rw [u1, e1]
    · rw [u2, e2]
  · intro h800 hId
    have hcount0 : sc.comboCount = 0 := by
      rw [c1]
      exact (hTB.2.2.1 h800).1
    have g4 : ¬ sc.currentState = PlayerSt.attacking := by
      rw [c5, hstsb, hId.1]
      simp
    have hatk : Player.handleAttack sc (punchTick d) =
        Player.performPunch sc := by
      unfold Player.handleAttack
      dsimp only []
      rw [if_neg g1, if_neg (fun h => h.1 rfl),
        if_neg (fun h => by
          rw [hcount0] at h
          exact absurd h.2.1 (by norm_num)),
        if_neg g4, if_neg (by simp [punchTick, restTick]),
      if_pos (show (punchTick d).punchPressed = true from rfl)]
    rw [hatk]
    have hCm := pcombo_handleMovement (Player.performPunch sc) (punchTick d)
    set sd2 := Player.handleMovement (Player.performPunch sc) (punchTick d)
      with hsd2
    have hCj := pcombo_handleJump sd2 (punchTick d)
    set se := Player.handleJump sd2 (punchTick d) with hse
    have hCse : PComboEq (Player.performPunch sc) se := pcombo_trans hCm hCj
    obtain ⟨e1, e2, e3, e4, e5, e6⟩ := hCse
    obtain ⟨u1, u2, u3, u4, u5⟩ := updateState_combo se (punchTick d)
    have hstA : se.currentState = PlayerSt.attacking := by
      rw [e5]
      rfl
    refine ⟨?_, ?_, ?_, ?_, ?_⟩
    · rw [u5, e6]
      rfl
    · exact updateState_locked se (punchTick d) hstA
    · rw [u1, e1]
      rfl
    · rw [u2, e2]
      rfl
    · rw [u3, e3]
      rfl

/-- C4: combo window.  Starting from the fresh player, a first primary-punch
press starts a Punch (arming `comboCount = 1`, `comboTimer = 800`,
`comboDelayTimer = 250`); across any admissible wait (quiet grounded ticks
and the punch animation-completion callback), a second press whose total
elapsed time `tm + d1` lies in `[250, 800)` performs an Uppercut and resets
`comboCount` and `comboTimer` to 0, while a second press with 800 ms or more
elapsed (the punch animation having completed) performs a fresh Punch. -/
theorem claim_C4_combo_window (d0 : ℚ) (mid : List PEvent) (tm d1 : ℚ)
    (hmid : MidC4 mid tm) (hd1 : 0 ≤ d1) :
    (250 ≤ tm + d1 → tm + d1 < 800 →
      (Player.update (prun (Player.update P0 (punchTick d0)) mid)
          (punchTick d1)).currentAttackType = some .uppercut ∧
        (Player.update (prun (Player.update P0 (punchTick d0)) mid)
            (punchTick d1)).currentState = .attacking ∧
        (Player.update (prun (Player.update P0 (punchTick d0)) mid)
            (punchTick d1)).comboCount = 0 ∧
        (Player.update (prun (Player.update P0 (punchTick d0)) mid)
            (punchTick d1)).comboTimer = 0) ∧
      (800 ≤ tm + d1 → PEvent.attackAnimComplete ∈ mid →
        (Player.update (prun (Player.update P0 (punchTick d0)) mid)
            (punchTick d1)).currentAttackType = some .punch ∧
          (Player.update (prun (Player.update P0 (punchTick d0)) mid)
              (punchTick d1)).currentState = .attacking ∧
          (Player.update (prun (Player.update P0 (punchTick d0)) mid)
              (punchTick d1)).comboCount = 1 ∧
          (Player.update (prun (Player.update P0 (punchTick d0)) mid)
              (punchTick d1)).comboTimer = P_COMBO_WINDOW) := by
  have h1 := update_punchPress_first P0 d0 rfl rfl (by norm_num [P0])
    (by norm_num [P0]) rfl
  have htm := midc4_nonneg mid tm hmid
  have hrun := c4_run mid tm hmid 0 _ (le_refl 0) h1.1 (Or.inl h1.2)
  rw [zero_add] at hrun
  set s2 := prun (Player.update P0 (punchTick d0)) mid with hs2
  have h2 := update_punchPress_second s2 d1 tm hd1 htm hrun.1 hrun.2.1
  constructor
  · intro ha hb
    obtain ⟨k1, k2, k3, k4⟩ := h2.1 ha hb
    exact ⟨k1, k2, k3, k4⟩
  · intro ha hmem
    obtain ⟨k1, k2, k3, k4, k5⟩ := h2.2 ha (hrun.2.2.2 hmem)
    exact ⟨k1, k2, k3, k4⟩

/-- Witness for C4: a second press 300 ms after the first gives the Uppercut;
a second press 816 ms after (the punch animation having completed) gives a
fresh Punch. -/
theorem claim_C4_witness :
    ((Player.update (prun (Player.update P0 (punchTick 16))
          [.tick (restTick 300)]) (punchTick 0)).currentAttackType =
        some .uppercut ∧
      (Player.update (prun (Player.update P0 (punchTick 16))
          [.tick (restTick 300)]) (punchTick 0)).comboCount = 0) ∧
      ((Player.update (prun (Player.update P0 (punchTick 16))
            [.tick (restTick 300), .attackAnimComplete, .tick (restTick 500)])
          (punchTick 16)).currentAttackType = some .punch ∧
        (Player.update (prun (Player.update P0 (punchTick 16))
              [.tick (restTick 300), .attackAnimComplete,
                .tick (restTick 500)])
            (punchTick 16)).comboCount = 1) := by
  have hmid1 : MidC4 [.tick (restTick 300)] (300 + 0) :=
    MidC4.tick 300 [] 0 (by norm_num) MidC4.nil
  have hmid2 : MidC4 [.tick (restTick 300), .attackAnimComplete,
      .tick (restTick 500)] (300 + (500 + 0)) :=
    MidC4.tick 300 _ _ (by norm_num)
      (MidC4.done _ _ (MidC4.tick 500 [] 0 (by norm_num) MidC4.nil))
  have ha := claim_C4_combo_window 16 [.tick (restTick 300)] (300 + 0) 0
    hmid1 (by norm_num)
  have hb := claim_C4_combo_window 16
    [.tick (restTick 300), .attackAnimComplete, .tick (restTick 500)]
    (300 + (500 + 0)) 16 hmid2 (by norm_num)
  obtain ⟨a1, a2, a3, a4⟩ := ha.1 (by norm_num) (by norm_num)
  obtain ⟨b1, b2, b3, b4⟩ := hb.2 (by norm_num) (by simp)
  exact ⟨⟨a1, a3⟩, ⟨b1, b3⟩⟩

/-- Witness for C9 amended: the touching configuration of the counterexample
leaves the enemy unhit, and the symmetric configuration leaves the player
unhit. -/
theorem claim_C9_amended_witness :
    Scene.checkPlayerAttack (some ⟨10, -60, 100, 60⟩) E0 160 0 100 220 10 0
        (some .punch) = E0 ∧
      Scene.checkEnemyAttack (some ⟨10, -60, 100, 60⟩) P0 E0 160 0 100 200 10 0
        = P0 :=
  ⟨claim_C9_amended.1 ⟨10, -60, 100, 60⟩ E0 160 0 100 220 10 0 (some .punch)
      (Or.inl (by norm_num)),
    claim_C9_amended.2 ⟨10, -60, 100, 60⟩ P0 E0 160 0 100 200 10 0
      (Or.inl (by norm_num))⟩

end HvB
